import Mathlib

/-!
Shallow embedding of the test-coverage-agent repository (Go) in Lean 4,
used to check the natural-language specification against the code.

Conventions of the embedding:
* Go `float64` coverage percentages are modelled as `ℚ`.  All numeric
  values appearing in the claims (65, 70, 80, 82, 100, 50.5, ...) are
  exactly representable, and the code performs no floating-point
  operation whose rounding could distinguish `float64` from `ℚ` on the
  inputs considered here.
* Go `time.Time` values are modelled as a `Nat` clock.  Every call to
  `time.Now()` in the source is one observation of a strictly
  increasing counter; the zero `time.Time` is `0`.
* Go maps are modelled as association lists with an insert-or-replace
  update (`mapInsert`) and key lookup (`mapLookup`).  The source never
  iterates over the maps modelled this way except to build the coverage
  report, whose iteration order is the list order of the input.
* Go `error` values are modelled by the inductive `GoErr`.
  `fmt.Errorf("msg: %w", err)` is `GoErr.wrapped "msg" err`, other
  errors are `GoErr.basic msg`, and `*claude.RateLimitError` is
  `GoErr.rateLimit resetTime retryAfter`.  The Go type assertion
  `err.(*claude.RateLimitError)` inspects only the dynamic (outermost)
  type of the value, so its model `asRateLimitErr` matches only the
  outermost constructor — it does not unwrap.
* External effects (HTTP requests, file reads/writes, running the
  toolchain) are oracles supplied as explicit environment arguments;
  the embedded functions reproduce the source's control flow and error
  wrapping around those oracles.
-/

namespace TCA

/-! ## Small helpers: Go maps as association lists, Go int truncation -/

/-- Insert-or-replace update of an association list, modelling Go's
`m[k] = v`. -/
def mapInsert {α : Type} (k : String) (v : α) :
    List (String × α) → List (String × α)
  | [] => [(k, v)]
  | (k', v') :: rest =>
      if k' = k then (k, v) :: rest else (k', v') :: mapInsert k v rest

/-- Lookup in an association list, modelling Go's `v, ok := m[k]`. -/
def mapLookup {α : Type} (k : String) : List (String × α) → Option α
  | [] => none
  | (k', v') :: rest => if k' = k then some v' else mapLookup k rest

/-- Go's `m[k]` read with the type's zero value as default. -/
def mapLookupD {α : Type} (k : String) (l : List (String × α)) (d : α) : α :=
  (mapLookup k l).getD d

/-- Go's `int(x)` conversion of a `float64`: truncation toward zero. -/
def goTrunc (x : ℚ) : Int := if 0 ≤ x then x.floor else x.ceil

/-! ## Go error values (`error`, `fmt.Errorf`, `*claude.RateLimitError`) -/

/-- Model of Go `error` values as produced by this repository.
`rateLimit resetTime retryAfter` is a `*claude.RateLimitError`;
`wrapped msg inner` is `fmt.Errorf(msg ++ ": %w", inner)`;
`basic msg` is any other error value. -/
inductive GoErr : Type
  | rateLimit (resetTime : Nat) (retryAfter : Nat)
  | wrapped (msg : String) (inner : GoErr)
  | basic (msg : String)
  deriving DecidableEq

/-- The Go type assertion `err.(*claude.RateLimitError)` (orchestrator,
src/coverage/go.go line 434).  A type assertion checks only the dynamic
type of the interface value; it does not unwrap errors wrapped with
`%w`, so only the outermost constructor is examined. -/
def asRateLimitErr : GoErr → Option (Nat × Nat)
  | .rateLimit t r => some (t, r)
  | _ => none

/-- `err.Error()`: `fmt.Errorf("m: %w", e)` renders as `"m: " ++ e.Error()`
and `RateLimitError.Error` is `"rate limit exceeded, resets at %v"`
(src/claude/client.go lines 78-80). -/
def errString : GoErr → String
  | .rateLimit t _ => "rate limit exceeded, resets at " ++ toString t
  | .wrapped msg inner => msg ++ ": " ++ errString inner
  | .basic msg => msg

/-! ## CoverageReport (src/unnamed/part_002, `coverage.CoverageReport`) -/

/-- `coverage.CoverageReport`.  `fileCoverage` and `uncoveredLines`
model the Go maps; `uncoveredFiles` keeps the slice order. -/
structure CoverageReport : Type where
  totalCoverage : ℚ
  fileCoverage : List (String × ℚ)
  uncoveredFiles : List String
  uncoveredLines : List (String × List Int)
  language : String
  deriving DecidableEq

/-! ## SessionState (src/unnamed/part_005, `config.State`) -/

/-- `config.CoverageSnapshot`. -/
structure CoverageSnapshot : Type where
  timestamp : Nat
  coverage : ℚ
  iteration : Nat
  filesAdded : Nat
  deriving DecidableEq

/-- `config.State`, the persisted session state.  All fields of the Go
struct are kept.  `processedFiles` models `map[string]bool`,
`failedFiles` models `map[string]string`; `rateLimitResetTime = 0`
models the zero `time.Time` (not throttled). -/
structure State : Type where
  currentIteration : Nat
  currentCoverage : ℚ
  targetCoverage : ℚ
  processedFiles : List (String × Bool)
  failedFiles : List (String × String)
  generatedTests : List String
  fixedTests : List String
  coverageHistory : List CoverageSnapshot
  lastAPICall : Nat
  apiCallCount : Nat
  rateLimitResetTime : Nat
  projectPath : String
  startedAt : Nat
  lastUpdatedAt : Nat
  pausedAt : Option Nat
  language : String
  deriving DecidableEq

/-- `config.NewState` (part_005 lines 54-70): iteration 0, empty
ledgers, `now` for the two timestamps. -/
def newState (projectPath : String) (targetCoverage : ℚ) (language : String)
    (now : Nat) : State where
  currentIteration := 0
  currentCoverage := 0
  targetCoverage := targetCoverage
  processedFiles := []
  failedFiles := []
  generatedTests := []
  fixedTests := []
  coverageHistory := []
  lastAPICall := 0
  apiCallCount := 0
  rateLimitResetTime := 0
  projectPath := projectPath
  startedAt := now
  lastUpdatedAt := now
  pausedAt := none
  language := language

/-- `State.AddCoverageSnapshot` (part_005 lines 104-112). -/
def addCoverageSnapshot (now : Nat) (coverage : ℚ) (s : State) : State :=
  { s with
    coverageHistory := s.coverageHistory ++
      [{ timestamp := now, coverage := coverage,
         iteration := s.currentIteration,
         filesAdded := s.generatedTests.length + s.fixedTests.length }],
    currentCoverage := coverage }

/-- `State.MarkFileProcessed` (part_005 lines 115-117). -/
def markFileProcessed (filename : String) (s : State) : State :=
  { s with processedFiles := mapInsert filename true s.processedFiles }

/-- `State.MarkFileFailed` (part_005 lines 120-122). -/
def markFileFailed (filename : String) (errorMsg : String) (s : State) : State :=
  { s with failedFiles := mapInsert filename errorMsg s.failedFiles }

/-- `State.IsFileProcessed` (part_005 lines 125-127): a Go map read
with default `false`. -/
def isFileProcessed (s : State) (filename : String) : Bool :=
  mapLookupD filename s.processedFiles false

/-- `State.AddGeneratedTest` (part_005 lines 130-132). -/
def addGeneratedTest (testFile : String) (s : State) : State :=
  { s with generatedTests := s.generatedTests ++ [testFile] }

/-- `State.AddFixedTest` (part_005 lines 135-137). -/
def addFixedTest (testFile : String) (s : State) : State :=
  { s with fixedTests := s.fixedTests ++ [testFile] }

/-- `State.RecordAPICall` (part_005 lines 140-143). -/
def recordAPICall (now : Nat) (s : State) : State :=
  { s with lastAPICall := now, apiCallCount := s.apiCallCount + 1 }

/-- `State.SetRateLimitReset` (part_005 lines 146-148). -/
def setRateLimitReset (resetTime : Nat) (s : State) : State :=
  { s with rateLimitResetTime := resetTime }

/-- `State.ShouldWaitForRateLimit` (part_005 lines 151-162): wait iff
the reset time is non-zero and still in the future. -/
def shouldWaitForRateLimit (s : State) (now : Nat) : Bool :=
  if s.rateLimitResetTime = 0 then false
  else decide (now < s.rateLimitResetTime)

/-- `State.NeedsTestGeneration` (part_005 lines 179-181). -/
def needsTestGeneration (s : State) : Bool :=
  decide (s.currentCoverage < s.targetCoverage)

/-- `State.SaveState` (part_005 lines 73-86): sets `LastUpdatedAt := now`
and serializes the whole struct to JSON.  `encoding/json` round-trips
every field of `config.State` (ints, floats, strings, maps, slices,
times), so the persisted record is modelled as the `State` value
itself after the `LastUpdatedAt` update. -/
def saveStateData (now : Nat) (s : State) : State :=
  { s with lastUpdatedAt := now }

/-- `config.LoadState` (part_005 lines 89-101): deserializing the saved
JSON restores the saved record. -/
def loadState (saved : State) : State := saved

/-! ## Work items and the prioritizer (src/coverage/go.go lines 466-517) -/

/-- `orchestrator.WorkItem`. -/
structure WorkItem : Type where
  sourceFile : String
  testFile : String
  currentCoverage : ℚ
  uncoveredLines : List Int
  priority : Int
  testFileIsPresent : Bool
  deriving DecidableEq

/-- The comparator passed to `sort.Slice` (go.go lines 512-514):
`items[i].Priority > items[j].Priority`. -/
def priorityLess (a b : WorkItem) : Bool := b.priority < a.priority

/-- Insertion step of a descending-by-priority insertion sort with
the `sort.Slice` comparator: an element moves left only past strictly
lower-priority items, so the new item lands after all items of equal
priority.  This is the insertion sort Go's `sort.Slice` (pdqsort)
runs on slices of fewer than 12 elements — which covers every
concrete work-item list evaluated in this file.  For longer slices
`sort.Slice` is documented unstable and guarantees only
`sortSliceOutcome` (a non-increasing-priority permutation, tie order
unspecified); no universally-quantified theorem below depends on the
tie order of this function, and `c2_prioritizer_properties` is stated
over an arbitrary `sortSliceOutcome`. -/
def insertByPriority (x : WorkItem) : List WorkItem → List WorkItem
  | [] => [x]
  | y :: ys =>
      if y.priority ≤ x.priority then x :: y :: ys
      else y :: insertByPriority x ys

/-- The executable model of the sort at go.go lines 512-514: exact
for the short slices Go sorts by insertion sort, one admissible
`sortSliceOutcome` in general (see `insertByPriority`). -/
def sortByPriority : List WorkItem → List WorkItem
  | [] => []
  | x :: xs => insertByPriority x (sortByPriority xs)

/-- The single `WorkItem` built by the loop body of
`prioritizeWorkItems` (go.go lines 491-508). -/
def mkWorkItem (getTestFilePath : String → String)
    (fsExists : String → Bool) (report : CoverageReport)
    (sourceFile : String) : WorkItem :=
  let testFile := getTestFilePath sourceFile
  { sourceFile := sourceFile
    testFile := testFile
    currentCoverage := mapLookupD sourceFile report.fileCoverage 0
    uncoveredLines := mapLookupD sourceFile report.uncoveredLines []
    priority := goTrunc (100 - mapLookupD sourceFile report.fileCoverage 0)
    testFileIsPresent := fsExists testFile }

/-- The pre-sort item list of `prioritizeWorkItems` (go.go lines
480-509): one item per entry of `report.UncoveredFiles`, in slice
order, skipping units already processed (482-484) or failed
(487-489). -/
def workItemsOf (getTestFilePath : String → String)
    (fsExists : String → Bool) (report : CoverageReport) (s : State) :
    List WorkItem :=
  report.uncoveredFiles.filterMap fun sourceFile =>
    if isFileProcessed s sourceFile then none
    else if (mapLookup sourceFile s.failedFiles).isSome then none
    else some (mkWorkItem getTestFilePath fsExists report sourceFile)

/-- `Orchestrator.prioritizeWorkItems` (go.go lines 477-517).
`getTestFilePath` models `analyzer.GetTestFilePath` and `fsExists`
models the `fileExists` probe of the working tree.  The final
`sort.Slice` is modelled by `sortByPriority`, exact for the short
slices where Go runs insertion sort; theorems not tied to a short
concrete input use this list only through membership, permutation and
sortedness — the facts `sort.Slice`'s contract guarantees at every
length. -/
def prioritizeWorkItems (getTestFilePath : String → String)
    (fsExists : String → Bool) (report : CoverageReport) (s : State) :
    List WorkItem :=
  sortByPriority (workItemsOf getTestFilePath fsExists report s)

/-- The contract of `sort.Slice` (go.go lines 512-514) for an input
of arbitrary length: the result is a permutation of the input sorted
by the comparator, i.e. non-increasing in priority.  `sort.Slice` is
documented unstable (Go's pdqsort reorders equal elements on slices
past its insertion-sort regime), so the relative order of
equal-priority items is unspecified beyond this. -/
def sortSliceOutcome (l out : List WorkItem) : Prop :=
  out.Perm l ∧ out.Pairwise (fun a b => b.priority ≤ a.priority)

/-- `GoAnalyzer.GetTestFilePath` (go.go lines 197-205).  `filepath.Ext`
of a path equals `".go"` exactly when the path ends in `".go"` (the
extension is taken from the last dot, and a path ending in `".go"` has
its last dot there). -/
def goGetTestFilePath (sourceFile : String) : String :=
  if sourceFile.endsWith ".go" then
    (sourceFile.dropRight 3) ++ "_test.go"
  else sourceFile ++ "_test.go"

deriving instance DecidableEq for Except

/-! ## Claude client (src/claude/client.go) -/

/-- `RetryMaxAttempts` (client.go line 16). -/
def retryMaxAttempts : Nat := 3

/-- `RetryBaseDelay` (client.go line 17), in seconds. -/
def retryBaseDelay : Nat := 2

/-- Outcome of one HTTP exchange as seen by `Client.makeRequest`
(client.go lines 125-188).  `tooMany h` is a status 429 whose
`retry-after` header is `h` (absent when `none`); `failed msg inner`
covers every other failing path of `makeRequest` (transport errors,
non-200 statuses, unmarshal failures), none of which constructs a
`*claude.RateLimitError`; `okResp texts` is a 200 response whose
content blocks carry `texts`. -/
inductive ReqOutcome : Type
  | tooMany (retryAfterHeader : Option Nat)
  | failed (msg : String) (inner : Option GoErr)
  | okResp (texts : List String)
  deriving DecidableEq

/-- `Client.makeRequest` (client.go lines 125-188) reduced to its
observable result.  On 429 it builds a `RateLimitError` whose reset
time is `now` plus the parsed `retry-after` header, defaulting to 60
seconds when the header is absent (lines 151-170). -/
def makeFailErr (msg : String) : Option GoErr → GoErr
  | none => .basic msg
  | some inner => .wrapped msg inner

def makeRequest (now : Nat) : ReqOutcome → Except GoErr (List String)
  | .tooMany h => .error (.rateLimit (now + h.getD 60) (h.getD 60))
  | .failed msg inner => .error (makeFailErr msg inner)
  | .okResp texts => .ok texts

/-- Result of `Client.SendMessage` together with the number of
`makeRequest` calls made and the list of backoff sleeps (seconds)
taken before retries. -/
structure SendOut : Type where
  result : Except GoErr String
  requests : Nat
  delays : List Nat

/-- The retry loop of `Client.SendMessage` (client.go lines 95-121).
`outcomes k` is the HTTP outcome of attempt `k` (0-based); `t0` is the
clock when `SendMessage` is entered and each backoff sleep advances it.
Before attempt `k ≥ 1` the loop sleeps `RetryBaseDelay * 2^(k-1)`
(line 98).  A `RateLimitError` from `makeRequest` is returned
immediately without further attempts (lines 105-107); any other error
is remembered and retried; after `RetryMaxAttempts` failed attempts
the last error is returned wrapped as
`"failed after 3 attempts: %w"` (line 121).  A 200 response returns
its first content block, or the `"empty response from Claude API"`
error when there is none (lines 114-118). -/
def sendLoop (outcomes : Nat → ReqOutcome) (attempt : Nat) (now : Nat)
    (lastErr : Option GoErr) (delaysAcc : List Nat) :
    Nat → SendOut
  | 0 =>
      { result := .error (.wrapped ("failed after " ++
          toString retryMaxAttempts ++ " attempts")
          ((lastErr).getD (.basic "nil"))),
        requests := attempt, delays := delaysAcc }
  | remaining + 1 =>
      let delay := if attempt = 0 then 0
        else retryBaseDelay * 2 ^ (attempt - 1)
      let now := now + delay
      let delaysAcc := if attempt = 0 then delaysAcc
        else delaysAcc ++ [delay]
      match makeRequest now (outcomes attempt) with
      | .error e =>
          match asRateLimitErr e with
          | some _ =>
              { result := .error e, requests := attempt + 1,
                delays := delaysAcc }
          | none =>
              sendLoop outcomes (attempt + 1) now (some e) delaysAcc remaining
      | .ok texts =>
          match texts with
          | [] =>
              { result := .error (.basic "empty response from Claude API"),
                requests := attempt + 1, delays := delaysAcc }
          | t :: _ =>
              { result := .ok t, requests := attempt + 1,
                delays := delaysAcc }

/-- `Client.SendMessage` (client.go lines 83-122). -/
def sendMessage (outcomes : Nat → ReqOutcome) (t0 : Nat) : SendOut :=
  sendLoop outcomes 0 t0 none [] retryMaxAttempts

/-! ## Validator (src/testgen/validator.go) -/

/-- `testgen.ValidationResult`. -/
structure ValidationResult : Type where
  success : Bool
  compilationOK : Bool
  testsPassed : Bool
  output : String
  errorMessage : String
  failedTests : List String
  deriving DecidableEq

/-- Character-list prefix test (helper for `strContains`). -/
def listStartsWith : List Char → List Char → Bool
  | _, [] => true
  | [], _ :: _ => false
  | c :: cs, p :: ps => c = p && listStartsWith cs ps

/-- Occurrence of `pat` anywhere in the character list (helper for
`strContains`). -/
def listHasSub : List Char → List Char → Bool
  | [], pat => pat.isEmpty
  | c :: cs, pat => listStartsWith (c :: cs) pat || listHasSub cs pat

/-- `strings.Contains`. -/
def strContains (s pat : String) : Bool := listHasSub s.data pat.data

/-- `Validator.extractFailedTests` (validator.go lines 104-123):
collect `parts[1]` of every output line matching one of the failure
markers, where `parts` are the whitespace-separated fields. -/
def extractFailedTests (output : String) : List String :=
  (output.splitOn "\n").filterMap fun line =>
    if strContains line "FAIL:" || strContains line "FAILED" ||
        strContains line "âœ—" || strContains line "Failed:" then
      match (line.split Char.isWhitespace).filter (· ≠ "") with
      | _ :: name :: _ => some name
      | _ => none
    else none

/-- `Validator.ValidateTest` (validator.go lines 35-72).
`analyzerOutcome` is the result of `analyzer.ValidateTestFile`:
`.error e` models a non-nil Go error (the toolchain could not run),
`.ok (success, output)` the normal return.  A non-nil analyzer error
is propagated as the wrapped hard error `"validation error: %w"`
(lines 44-46); otherwise the output is classified. -/
def validateTest (analyzerOutcome : Except GoErr (Bool × String)) :
    Except GoErr ValidationResult :=
  match analyzerOutcome with
  | .error e => .error (.wrapped "validation error" e)
  | .ok (success, output) =>
      if strContains output "compilation failed" ||
          strContains output "build failed" ||
          (strContains output "error:" &&
            strContains output "cannot find symbol") then
        .ok { success := false, compilationOK := false, testsPassed := false,
              output := output, errorMessage := "Compilation failed",
              failedTests := [] }
      else if success then
        .ok { success := true, compilationOK := true, testsPassed := true,
              output := output, errorMessage := "", failedTests := [] }
      else
        .ok { success := false, compilationOK := true, testsPassed := false,
              output := output, errorMessage := "Tests failed",
              failedTests := extractFailedTests output }

/-! ## Generator (src/testgen/generator.go): error-wrapping skeletons.
The prompt construction and `ExtractCodeFromResponse` are pure string
formatting with no effect on control flow; the oracles below supply the
outcome of each external step (file reads, the API call, directory
creation, file writes). -/

/-- Oracles for one `Generator.GenerateTestForFile` call. -/
structure GenCallEnv : Type where
  readSource : Except GoErr String
  send : Except GoErr String
  mkdir : Except GoErr Unit
  write : Except GoErr Unit

/-- `Generator.GenerateTestForFile` (generator.go lines 28-67): read the
source file, call `SendMessage`, create the test directory, write the
test file; each failure is wrapped with `%w` as in the source.  Note in
particular line 46: a `*claude.RateLimitError` coming back from
`SendMessage` is wrapped into `"failed to generate test: %w"`. -/
def generateTestForFile (env : GenCallEnv) (testFilePath : String) :
    Except GoErr String :=
  match env.readSource with
  | .error e => .error (.wrapped "failed to read source file" e)
  | .ok _ =>
  match env.send with
  | .error e => .error (.wrapped "failed to generate test" e)
  | .ok _ =>
  match env.mkdir with
  | .error e => .error (.wrapped "failed to create test directory" e)
  | .ok _ =>
  match env.write with
  | .error e => .error (.wrapped "failed to write test file" e)
  | .ok _ => .ok testFilePath

/-- Oracles for one `Generator.ImproveExistingTest` call. -/
structure ImpCallEnv : Type where
  readSource : Except GoErr String
  readTest : Except GoErr String
  send : Except GoErr String
  write : Except GoErr Unit

/-- `Generator.ImproveExistingTest` (generator.go lines 100-141). -/
def improveExistingTest (env : ImpCallEnv) (testFile : String) :
    Except GoErr String :=
  match env.readSource with
  | .error e => .error (.wrapped "failed to read source file" e)
  | .ok _ =>
  match env.readTest with
  | .error e => .error (.wrapped "failed to read test file" e)
  | .ok _ =>
  match env.send with
  | .error e => .error (.wrapped "failed to improve test" e)
  | .ok _ =>
  match env.write with
  | .error e => .error (.wrapped "failed to write improved test file" e)
  | .ok _ => .ok testFile

/-- Oracles for one `Generator.FixBrokenTest` call. -/
structure FixCallEnv : Type where
  readTest : Except GoErr String
  send : Except GoErr String
  write : Except GoErr Unit

/-- `Generator.FixBrokenTest` (generator.go lines 70-97). -/
def fixBrokenTest (env : FixCallEnv) (testFile : String) :
    Except GoErr String :=
  match env.readTest with
  | .error e => .error (.wrapped "failed to read test file" e)
  | .ok _ =>
  match env.send with
  | .error e => .error (.wrapped "failed to fix test" e)
  | .ok _ =>
  match env.write with
  | .error e => .error (.wrapped "failed to write fixed test file" e)
  | .ok _ => .ok testFile

/-! ## `Validator.ValidateAndRetry` (validator.go lines 75-101) -/

/-- Environment of one `ValidateAndRetry` run.  The test file on disk
changes only when a repair succeeds, so the toolchain outcome is a
function of the number of successful repairs so far
(`analyzerOutcome k` = result of `analyzer.ValidateTestFile` after `k`
successful repairs); `fixCall k` supplies the oracles of the `k`-th
`FixBrokenTest` invocation. -/
structure ValEnv : Type where
  analyzerOutcome : Nat → Except GoErr (Bool × String)
  fixCall : Nat → FixCallEnv
  testFile : String

/-- Observable outcome of `ValidateAndRetry`: the returned
(result, error) pair collapsed to `Except` (callers check the error
first and otherwise use the result), the number of `FixBrokenTest`
invocations, and the number of successful repairs (= repaired-file
writes). -/
structure VarOut : Type where
  result : Except GoErr ValidationResult
  fixCalls : Nat
  fixWrites : Nat
  deriving DecidableEq

/-- The loop of `ValidateAndRetry` (validator.go lines 76-96) followed
by the trailing re-validation (lines 99-100).  `remaining` counts loop
iterations still to run (initially `maxRetries + 1`; the Go loop runs
`attempt = 0 .. maxRetries`, and `attempt < maxRetries` in line 87
corresponds to `remaining > 1`); `fixes` is the number of successful
repairs so far.  When the loop ends without success the source calls
`ValidateTest` once more and returns that result (lines 99-100). -/
def varLoop (env : ValEnv) : Nat → Nat → VarOut
  | 0, fixes =>
      { result := validateTest (env.analyzerOutcome fixes),
        fixCalls := 0, fixWrites := 0 }
  | remaining + 1, fixes =>
      match validateTest (env.analyzerOutcome fixes) with
      | .error e => { result := .error e, fixCalls := 0, fixWrites := 0 }
      | .ok r =>
          if r.success then
            { result := .ok r, fixCalls := 0, fixWrites := 0 }
          else if 0 < remaining then
            match fixBrokenTest (env.fixCall fixes) env.testFile with
            | .error e =>
                { result := .error (.wrapped "failed to fix test" e),
                  fixCalls := 1, fixWrites := 0 }
            | .ok _ =>
                let out := varLoop env remaining (fixes + 1)
                { out with fixCalls := out.fixCalls + 1,
                           fixWrites := out.fixWrites + 1 }
          else
            varLoop env remaining fixes

/-- `Validator.ValidateAndRetry` (validator.go lines 75-101). -/
def validateAndRetry (env : ValEnv) (maxRetries : Nat) : VarOut :=
  varLoop env (maxRetries + 1) 0

/-! ## Orchestrator (src/coverage/go.go lines 251-620, package
`orchestrator`) -/

/-- `config.Config` together with the analyzer capability the
orchestrator consumes (`analyzer.GetTestFilePath`; the analyzer's
other methods appear as oracles).  `ClaudeAPIKey` carries the
`json:"-"` tag and is never part of the persisted state, which the
embedding reflects by keeping it out of `State`. -/
structure ConfigM : Type where
  projectPath : String
  targetCoverage : ℚ
  stateFile : String
  dryRun : Bool
  maxIterations : Nat
  getTestFilePath : String → String

/-- The orchestrator's run-time footprint: the owned `State`, the
clock, and observation counters used only by the theorems (file writes
performed, `ValidateAndRetry` invocations, and the sequence of
snapshots passed to `SaveState`). -/
structure Machine : Type where
  state : State
  clock : Nat
  writeCount : Nat
  valRuns : Nat
  savedStates : List State

/-- `Orchestrator.SaveState` (go.go lines 318-320 calling
`State.SaveState`): stamp `LastUpdatedAt` and persist the snapshot. -/
def mSave (m : Machine) : Machine :=
  let s := saveStateData m.clock m.state
  { m with
    state := s
    clock := m.clock + 1
    savedStates := m.savedStates ++ [s] }

/-- `o.state.AddCoverageSnapshot(...)` with a fresh `time.Now()`. -/
def mSnapshot (coverage : ℚ) (m : Machine) : Machine :=
  { m with
    state := addCoverageSnapshot m.clock coverage m.state
    clock := m.clock + 1 }

/-- `o.state.RecordAPICall()` with a fresh `time.Now()`. -/
def mRecordAPICall (m : Machine) : Machine :=
  { m with state := recordAPICall m.clock m.state, clock := m.clock + 1 }

/-- Oracles of one `Orchestrator.processFile` call (go.go lines
520-606): the context-cancellation probe, the generator-call oracles
for the two branches, and the validator environment. -/
structure ProcEnv : Type where
  cancelled : Bool
  gen : GenCallEnv
  improve : ImpCallEnv
  val : ValEnv

/-- `ctx.Err()` after cancellation. -/
def ctxCanceledErr : GoErr := .basic "context canceled"

/-- `Orchestrator.processFile` (go.go lines 520-606).  Mirrors the
source: cancellation check (522-526); generate-or-improve branch on
`item.Exists` and `DryRun` (531-568) with `RecordAPICall` before each
client call and the artifact recorded on success; then, unless in dry
run, `ValidateAndRetry` with `maxRetries = 2` (573-578), a hard error
wrapped as `"validation error: %w"` (580-582), a clean failure marked
failed (584-588), a success (after the best-effort git commit, which
touches no state) marked processed (603); in dry run the unit is
marked processed directly (603). -/
def processFile (cfg : ConfigM) (env : ProcEnv) (item : WorkItem)
    (m : Machine) : Machine × Option GoErr :=
  if env.cancelled then (m, some ctxCanceledErr)
  else
    let step1 : Machine × Except GoErr String :=
      if item.testFileIsPresent = false then
        if cfg.dryRun = false then
          let m := mRecordAPICall m
          match generateTestForFile env.gen
              (cfg.getTestFilePath item.sourceFile) with
          | .error e => (m, .error (.wrapped "failed to generate test" e))
          | .ok tf =>
              ({ m with
                 state := addGeneratedTest tf m.state
                 writeCount := m.writeCount + 1 }, .ok tf)
        else (m, .ok item.testFile)
      else
        if cfg.dryRun = false then
          let m := mRecordAPICall m
          match improveExistingTest env.improve item.testFile with
          | .error e => (m, .error (.wrapped "failed to improve test" e))
          | .ok tf =>
              ({ m with
                 state := addFixedTest tf m.state
                 writeCount := m.writeCount + 1 }, .ok tf)
        else (m, .ok item.testFile)
    let m := step1.1
    match step1.2 with
    | .error e => (m, some e)
    | .ok _ =>
        if cfg.dryRun = false then
          let out := validateAndRetry env.val 2
          let m := { m with
                     valRuns := m.valRuns + 1
                     writeCount := m.writeCount + out.fixWrites }
          match out.result with
          | .error e => (m, some (.wrapped "validation error" e))
          | .ok r =>
              if r.success = false then
                ({ m with state :=
                    markFileFailed item.sourceFile r.errorMessage m.state },
                 none)
              else
                ({ m with state :=
                    markFileProcessed item.sourceFile m.state }, none)
        else
          ({ m with state := markFileProcessed item.sourceFile m.state },
           none)

/-- Oracles of one iteration of the main loop of `Orchestrator.Run`
(go.go lines 366-457). -/
structure IterEnv : Type where
  cancelled : Bool
  cancelledDuringWait : Bool
  measure : Except GoErr CoverageReport
  fsExists : String → Bool
  proc : ProcEnv

/-- Why `Run` returned (also distinguishing a fuel-truncated run of
the model, which corresponds to observing the loop mid-session). -/
inductive StopReason : Type
  | cancelledStop
  | fatal (e : GoErr)
  | targetReached
  | noCandidates
  | maxIterationsReached
  | alreadySufficient
  | alreadyAchieved
  deriving DecidableEq

/-- Result of one loop iteration: continue or leave the loop. -/
inductive StepRes : Type
  | cont (m : Machine)
  | halt (m : Machine) (r : StopReason)

/-- Lines 420-448 of `Run`: prioritize, take the top item, process it,
and dispatch on the processing outcome (`m` is the machine right after
the history snapshot of the current measurement). -/
def runSelect (cfg : ConfigM) (env : IterEnv) (report : CoverageReport)
    (m : Machine) : StepRes :=
  match prioritizeWorkItems cfg.getTestFilePath env.fsExists
      report m.state with
  | [] => .halt (mSave m) .noCandidates
  | item :: _ =>
      let pr := processFile cfg env.proc item m
      let m := pr.1
      match pr.2 with
      | some e =>
          match asRateLimitErr e with
          | some (t, _) =>
              let s := setRateLimitReset t m.state
              let m := { m with state := s }
              .cont (mSave m)
          | none =>
              let s := markFileFailed item.sourceFile
                (errString e) m.state
              let m := { m with state := s }
              .cont (mSave m)
      | none => .cont (mSave m)

/-- Lines 397-457 of `Run`: the iteration body (see `runIter`). -/
def runIterCore (cfg : ConfigM) (env : IterEnv) (m : Machine) : StepRes :=
  let m := { m with state :=
    { m.state with currentIteration := m.state.currentIteration + 1 } }
  match env.measure with
  | .error e =>
      .halt m (.fatal (.wrapped "failed to run coverage analysis" e))
  | .ok report =>
      let m := mSnapshot report.totalCoverage m
      if cfg.targetCoverage ≤ report.totalCoverage then
        .halt (mSave m) .targetReached
      else
        runSelect cfg env report m

/-- One pass of the main loop of `Orchestrator.Run` (go.go lines
366-457), split as the wait/cancellation prologue here and the
iteration body in `runIterCore`.  Included: the loop condition (366)
whose exit saves and reports the iteration ceiling (459-463);
cancellation at the top, which saves and stops (368-373); a pending
rate-limit deadline, which saves, then either stops on cancellation
during the wait (saving again) or blocks until the deadline
(376-395).  The body (`runIterCore`, lines 397-457) increments the
iteration counter (397), measures coverage (401-404; a measurement
error aborts the run with a wrapped error and no save), appends a
history snapshot (406), applies the target check (411-417),
prioritizes work items (420-424), and processes the top item
(427-448): a `*claude.RateLimitError` detected by the type assertion
records the deadline, saves, and re-enters the loop (434-443), any
other processing error marks the unit failed (447); the iteration
ends with a state save (451-453). -/
def runIter (cfg : ConfigM) (env : IterEnv) (m : Machine) : StepRes :=
  if ¬ m.state.currentIteration < cfg.maxIterations then
    .halt (mSave m) .maxIterationsReached
  else if env.cancelled then
    .halt (mSave m) .cancelledStop
  else
    let waiting := shouldWaitForRateLimit m.state m.clock
    let m := if waiting then mSave m else m
    if waiting ∧ env.cancelledDuringWait then
      .halt (mSave m) .cancelledStop
    else
      let m :=
        if waiting then
          { m with clock := max m.clock m.state.rateLimitResetTime }
        else m
      runIterCore cfg env m

/-- The main loop of `Run`, driven by fuel.  `envs i` supplies the
oracles of the `i`-th pass; running out of fuel returns the machine as
it stands with no stop reason (the loop itself always terminates
because each pass increments the iteration counter, bounded by
`MaxIterations`, so any `fuel ≥ cfg.maxIterations` reproduces the
source; smaller fuels observe the loop mid-session). -/
def runLoop (cfg : ConfigM) (envs : Nat → IterEnv) :
    Nat → Nat → Machine → Machine × Option StopReason
  | _, 0, m => (m, none)
  | i, fuel + 1, m =>
      match runIter cfg (envs i) m with
      | .halt m' r => (m', some r)
      | .cont m' => runLoop cfg envs (i + 1) fuel m'

/-- `Orchestrator.Run` (go.go lines 323-464): the git-branch creation
(325-332) touches no session state; the initial coverage measurement
and snapshot (334-342); the gap check (345-363) returning early, with
a save, when no generation is needed; then the main loop. -/
def runMain (cfg : ConfigM) (initialMeasure : Except GoErr CoverageReport)
    (envs : Nat → IterEnv) (fuel : Nat) (m : Machine) :
    Machine × Option StopReason :=
  match initialMeasure with
  | .error e =>
      (m, some (.fatal (.wrapped "failed to run initial coverage analysis" e)))
  | .ok report =>
      let m := mSnapshot report.totalCoverage m
      if 0 < cfg.targetCoverage - report.totalCoverage then
        if needsTestGeneration m.state = false then
          (mSave m, some .alreadySufficient)
        else runLoop cfg envs 0 fuel m
      else (mSave m, some .alreadyAchieved)

/-- `orchestrator.New` (go.go lines 279-304): a fresh machine owning
`config.NewState`. -/
def machineNew (cfg : ConfigM) (language : String) (clock : Nat) : Machine where
  state := newState cfg.projectPath cfg.targetCoverage language clock
  clock := clock + 1
  writeCount := 0
  valRuns := 0
  savedStates := []

/-- `Orchestrator.LoadState` followed by `Run` on the restarted
process (main.go lines 63-69): the orchestrator built by `New` has its
fresh state replaced by the deserialized snapshot, and the run-time
counters of the new process start at zero. -/
def machineResume (saved : State) (clock : Nat) : Machine where
  state := loadState saved
  clock := clock
  writeCount := 0
  valRuns := 0
  savedStates := []

/-- The machine of a step result (for stating observations). -/
def stepMachine : StepRes → Machine
  | .cont m => m
  | .halt m _ => m

/-- Whether a step result re-enters the loop. -/
def stepIsCont : StepRes → Bool
  | .cont _ => true
  | .halt _ _ => false

/-! ## Python analyzer report construction
(src/coverage/python.go lines 107-113) -/

/-- The per-file loop of `PythonAnalyzer.parseCoverageJSON` (python.go
lines 107-113): every file enters `FileCoverage`, but a file enters
`UncoveredFiles`/`UncoveredLines` only when its `missing_lines` list
is non-empty.  `files` carries `(name, percent_covered, missing_lines)`
triples in iteration order. -/
def pythonReportOfFiles (total : ℚ)
    (files : List (String × ℚ × List Int)) : CoverageReport :=
  files.foldl
    (fun rep entry =>
      let name := entry.1
      let pct := entry.2.1
      let missing := entry.2.2
      { rep with
        fileCoverage := mapInsert name pct rep.fileCoverage,
        uncoveredFiles :=
          if 0 < missing.length then rep.uncoveredFiles ++ [name]
          else rep.uncoveredFiles,
        uncoveredLines :=
          if 0 < missing.length then mapInsert name missing rep.uncoveredLines
          else rep.uncoveredLines })
    { totalCoverage := total, fileCoverage := [], uncoveredFiles := [],
      uncoveredLines := [], language := "Python" }

/-! ## Concrete scenario environments used by witnesses and
counterexamples -/

/-- A one-file coverage report. -/
def repOf (c : ℚ) (f : String) : CoverageReport :=
  { totalCoverage := c, fileCoverage := [(f, c)], uncoveredFiles := [f],
    uncoveredLines := [(f, [5])], language := "Go" }

/-- A two-file report whose coverages 50.75 and 50.5 truncate to the
same priority 49. -/
def repC2 : CoverageReport :=
  { totalCoverage := 50, fileCoverage := [("a.go", 203/4), ("b.go", 101/2)],
    uncoveredFiles := ["a.go", "b.go"], uncoveredLines := [],
    language := "Go" }

/-- A validator environment whose toolchain always passes. -/
def valEnvPass : ValEnv :=
  { analyzerOutcome := fun _ => .ok (true, "ok"),
    fixCall := fun _ =>
      { readTest := .ok "t", send := .ok "r", write := .ok () },
    testFile := "a_test.go" }

/-- A processing environment in which every external call succeeds. -/
def procEnvOK : ProcEnv :=
  { cancelled := false,
    gen := { readSource := .ok "s", send := .ok "r", mkdir := .ok (),
             write := .ok () },
    improve := { readSource := .ok "s", readTest := .ok "t", send := .ok "r",
                 write := .ok () },
    val := valEnvPass }

/-- An uneventful iteration environment measuring `c` with `f` as the
only uncovered file. -/
def iterEnvOf (c : ℚ) (f : String) : IterEnv :=
  { cancelled := false, cancelledDuringWait := false,
    measure := .ok (repOf c f), fsExists := fun _ => false,
    proc := procEnvOK }

/-- A standard configuration: target 80, generous iteration ceiling. -/
def cfgStd : ConfigM :=
  { projectPath := "p", targetCoverage := 80, stateFile := "st",
    dryRun := false, maxIterations := 100,
    getTestFilePath := goGetTestFilePath }

/-- Per-iteration measurements 65, 70, 82 (the termination scenario of
the specification). -/
def envsSeq82 : Nat → IterEnv
  | 0 => iterEnvOf 65 "f1.go"
  | 1 => iterEnvOf 70 "f2.go"
  | _ => iterEnvOf 82 "f3.go"

/-- A validator environment whose toolchain always reports a clean
test failure. -/
def valEnvFail : ValEnv :=
  { analyzerOutcome := fun _ => .ok (false, "x"),
    fixCall := fun _ =>
      { readTest := .ok "t", send := .ok "r", write := .ok () },
    testFile := "a_test.go" }

/-- A processing environment whose validations always fail cleanly. -/
def procEnvFail : ProcEnv := { procEnvOK with val := valEnvFail }

/-- A concrete work item for a unit with no test file yet. -/
def itemA : WorkItem :=
  { sourceFile := "a.go", testFile := "a_test.go", currentCoverage := 50,
    uncoveredLines := [5], priority := 50, testFileIsPresent := false }

/-- A validator environment whose toolchain cannot run at all. -/
def valEnvHard : ValEnv :=
  { analyzerOutcome := fun _ => .error (.basic "exec: go: not found"),
    fixCall := fun _ =>
      { readTest := .ok "t", send := .ok "r", write := .ok () },
    testFile := "a_test.go" }

/-- A processing environment whose validation is a hard error. -/
def procEnvHard : ProcEnv := { procEnvOK with val := valEnvHard }

/-- An iteration environment whose validation is a hard error. -/
def iterEnvHard : IterEnv := { iterEnvOf 50 "f1.go" with proc := procEnvHard }

/-- A generation-call environment whose API call reports throttling
(HTTP 429, reset at time 1000). -/
def procEnvRL : ProcEnv :=
  { procEnvOK with
    gen := { readSource := .ok "s", send := .error (.rateLimit 1000 60),
             mkdir := .ok (), write := .ok () } }

/-- An iteration environment whose generation call is throttled. -/
def iterEnvRL : IterEnv := { iterEnvOf 50 "f1.go" with proc := procEnvRL }

/-- Environments of an interrupted first session: pass 0 measures 66
and processes its unit; the context is cancelled from pass 1 on. -/
def envsC4 : Nat → IterEnv
  | 0 => iterEnvOf 66 "f1.go"
  | _ => { iterEnvOf 66 "f1.go" with cancelled := true }

/-- The interrupted first session: fresh state, initial measurement
65, one completed pass, then cancellation. -/
def sessC4 : Machine × Option StopReason :=
  runMain cfgStd (.ok (repOf 65 "f0.go")) envsC4 10 (machineNew cfgStd "Go" 0)

/-- The state the interrupted session persisted (its final save). -/
def savedC4 : State := sessC4.1.state

/-- The restarted session, resumed from the saved state with the new
process's clock, immediately cancelled again after the initial
snapshot. -/
def sessC4r : Machine × Option StopReason :=
  runMain cfgStd (.ok (repOf 66 "f2.go"))
    (fun _ => { iterEnvOf 66 "f2.go" with cancelled := true }) 10
    (machineResume (loadState savedC4) sessC4.1.clock)

/-- A small saved session state after one completed iteration:
`f1.go` processed, one generated test, two history entries. -/
def savedW : State where
  currentIteration := 1
  currentCoverage := 66
  targetCoverage := 80
  processedFiles := [("f1.go", true)]
  failedFiles := []
  generatedTests := ["f1_test.go"]
  fixedTests := []
  coverageHistory :=
    [{ timestamp := 1, coverage := 65, iteration := 0, filesAdded := 0 },
     { timestamp := 2, coverage := 66, iteration := 1, filesAdded := 1 }]
  lastAPICall := 3
  apiCallCount := 1
  rateLimitResetTime := 0
  projectPath := "p"
  startedAt := 0
  lastUpdatedAt := 5
  pausedAt := none
  language := "Go"

/-- The history entry appended by the snapshot of a loop pass (after
the iteration increment). -/
def snapEntry (m : Machine) (c : ℚ) : CoverageSnapshot where
  timestamp := m.clock
  coverage := c
  iteration := m.state.currentIteration + 1
  filesAdded := m.state.generatedTests.length + m.state.fixedTests.length

/-- The history entry appended by a snapshot taken outside the loop
(no iteration increment), e.g. the initial measurement of `Run`. -/
def snapEntry0 (m : Machine) (c : ℚ) : CoverageSnapshot where
  timestamp := m.clock
  coverage := c
  iteration := m.state.currentIteration
  filesAdded := m.state.generatedTests.length + m.state.fixedTests.length

/-! ## Invariant vocabulary used by the theorems -/

/-- At-most-once classification: no unit is in both ledgers. -/
def ledgerOK (s : State) : Prop :=
  ∀ u, isFileProcessed s u = true → mapLookup u s.failedFiles = none

/-- Ledger evolution within a session: entries are never removed,
never change, and never move to the other ledger. -/
def ledgerStep (s s' : State) : Prop :=
  (∀ u, isFileProcessed s u = true → isFileProcessed s' u = true) ∧
  (∀ u msg, mapLookup u s.failedFiles = some msg →
    mapLookup u s'.failedFiles = some msg) ∧
  (∀ u, isFileProcessed s u = true →
    mapLookup u s'.failedFiles = mapLookup u s.failedFiles) ∧
  (∀ u, (mapLookup u s.failedFiles).isSome = true →
    isFileProcessed s' u = isFileProcessed s u)

/-- Well-formed coverage history of a running machine: iteration
numbers non-decreasing and bounded by the current iteration counter,
timestamps strictly increasing and in the machine's past. -/
def histOK (m : Machine) : Prop :=
  m.state.coverageHistory.Chain' (fun a b => a.iteration ≤ b.iteration) ∧
  m.state.coverageHistory.Chain' (fun a b => a.timestamp < b.timestamp) ∧
  (∀ e ∈ m.state.coverageHistory,
    e.iteration ≤ m.state.currentIteration ∧ e.timestamp < m.clock)

/-! # Lemmas

General lemmas about the embedded definitions, shared by the claim
theorems. -/

theorem mapLookup_mapInsert_self {α : Type} (k : String) (v : α)
    (l : List (String × α)) : mapLookup k (mapInsert k v l) = some v := by
  induction l with
  | nil => simp [mapInsert, mapLookup]
  | cons hd tl ih =>
      obtain ⟨k', v'⟩ := hd
      by_cases h : k' = k <;> simp [mapInsert, mapLookup, h, ih]

theorem mapLookup_mapInsert_ne {α : Type} {k k' : String} (v : α)
    (l : List (String × α)) (h : k' ≠ k) :
    mapLookup k' (mapInsert k v l) = mapLookup k' l := by
  have hne : ¬k = k' := fun h' => h h'.symm
  induction l with
  | nil => simp [mapInsert, mapLookup, hne]
  | cons hd tl ih =>
      obtain ⟨k₀, v₀⟩ := hd
      by_cases h0 : k₀ = k
      · subst h0
        simp [mapInsert, mapLookup, hne]
      · by_cases h1 : k₀ = k'
        · subst h1; simp [mapInsert, mapLookup, h0]
        · simp [mapInsert, mapLookup, h0, h1, ih]

/-! ### Prioritizer lemmas -/

theorem insertByPriority_perm (x : WorkItem) (l : List WorkItem) :
    (insertByPriority x l).Perm (x :: l) := by
  induction l with
  | nil => simp [insertByPriority]
  | cons y ys ih =>
      by_cases h : y.priority ≤ x.priority
      · simp [insertByPriority, h]
      · simp only [insertByPriority, if_neg h]
        exact (ih.cons y).trans (List.Perm.swap x y ys)

theorem sortByPriority_perm (l : List WorkItem) :
    (sortByPriority l).Perm l := by
  induction l with
  | nil => simp [sortByPriority]
  | cons x xs ih =>
      exact (insertByPriority_perm x (sortByPriority xs)).trans (ih.cons x)

theorem mem_sortByPriority {i : WorkItem} {l : List WorkItem} :
    i ∈ sortByPriority l ↔ i ∈ l :=
  (sortByPriority_perm l).mem_iff

theorem pairwise_insertByPriority {x : WorkItem} {l : List WorkItem}
    (h : l.Pairwise fun a b => b.priority ≤ a.priority) :
    (insertByPriority x l).Pairwise fun a b => b.priority ≤ a.priority := by
  induction l with
  | nil => simp [insertByPriority]
  | cons y ys ih =>
      rw [List.pairwise_cons] at h
      by_cases hxy : y.priority ≤ x.priority
      · rw [insertByPriority, if_pos hxy, List.pairwise_cons]
        refine ⟨?_, List.pairwise_cons.2 h⟩
        intro z hz
        rcases List.mem_cons.1 hz with hz | hz
        · exact hz ▸ hxy
        · exact (h.1 z hz).trans hxy
      · rw [insertByPriority, if_neg hxy, List.pairwise_cons]
        refine ⟨?_, ih h.2⟩
        intro z hz
        rcases List.mem_cons.1 ((insertByPriority_perm x ys).mem_iff.1 hz) with
          hz | hz
        · exact hz ▸ (le_of_not_le hxy)
        · exact h.1 z hz

theorem pairwise_sortByPriority (l : List WorkItem) :
    (sortByPriority l).Pairwise fun a b => b.priority ≤ a.priority := by
  induction l with
  | nil => simp [sortByPriority]
  | cons x xs ih => exact pairwise_insertByPriority ih

/-- The fields of a `WorkItem` that do not consult the file system. -/
def itemKey (i : WorkItem) : String × String × ℚ × List Int × Int :=
  (i.sourceFile, i.testFile, i.currentCoverage, i.uncoveredLines, i.priority)

theorem itemKey_mkWorkItem (g : String → String) (fs1 fs2 : String → Bool)
    (report : CoverageReport) (u : String) :
    itemKey (mkWorkItem g fs1 report u) = itemKey (mkWorkItem g fs2 report u) := by
  simp [itemKey, mkWorkItem]

theorem workItemsOf_map_itemKey (g : String → String)
    (fs1 fs2 : String → Bool) (report : CoverageReport) (s : State) :
    (workItemsOf g fs1 report s).map itemKey =
      (workItemsOf g fs2 report s).map itemKey := by
  unfold workItemsOf
  induction report.uncoveredFiles with
  | nil => rfl
  | cons u us ih =>
      by_cases h1 : isFileProcessed s u
      · simpa [List.filterMap_cons, h1] using ih
      · by_cases h2 : (mapLookup u s.failedFiles).isSome
        · simpa [List.filterMap_cons, h1, h2] using ih
        · simpa [List.filterMap_cons, h1, h2,
            itemKey_mkWorkItem g fs1 fs2 report u] using ih

theorem sourceFile_mkWorkItem (g : String → String) (fs : String → Bool)
    (report : CoverageReport) (u : String) :
    (mkWorkItem g fs report u).sourceFile = u := rfl

theorem mem_workItemsOf {g : String → String} {fs : String → Bool}
    {report : CoverageReport} {s : State} {i : WorkItem} :
    i ∈ workItemsOf g fs report s ↔
      i.sourceFile ∈ report.uncoveredFiles ∧
      isFileProcessed s i.sourceFile = false ∧
      mapLookup i.sourceFile s.failedFiles = none ∧
      i = mkWorkItem g fs report i.sourceFile := by
  unfold workItemsOf
  rw [List.mem_filterMap]
  constructor
  · rintro ⟨u, hu, hi⟩
    by_cases h1 : isFileProcessed s u
    · simp [h1] at hi
    · by_cases h2 : (mapLookup u s.failedFiles).isSome
      · simp [h1, h2] at hi
      · simp only [h1, Bool.false_eq_true, if_false, h2, if_neg,
          Option.some.injEq] at hi
        subst hi
        refine ⟨hu, by simpa using h1, ?_, rfl⟩
        exact Option.not_isSome_iff_eq_none.mp (by simpa using h2)
  · rintro ⟨hu, h1, h2, hi⟩
    exact ⟨i.sourceFile, hu, by simp [h1, h2, ← hi]⟩

theorem mem_prioritize {g : String → String} {fs : String → Bool}
    {report : CoverageReport} {s : State} {i : WorkItem} :
    i ∈ prioritizeWorkItems g fs report s ↔
      i.sourceFile ∈ report.uncoveredFiles ∧
      isFileProcessed s i.sourceFile = false ∧
      mapLookup i.sourceFile s.failedFiles = none ∧
      i = mkWorkItem g fs report i.sourceFile := by
  rw [prioritizeWorkItems, mem_sortByPriority, mem_workItemsOf]

theorem sourceFile_mem_prioritize {g : String → String} {fs : String → Bool}
    {report : CoverageReport} {s : State} {u : String} :
    u ∈ (prioritizeWorkItems g fs report s).map (fun i => i.sourceFile) ↔
      u ∈ report.uncoveredFiles ∧ isFileProcessed s u = false ∧
      mapLookup u s.failedFiles = none := by
  rw [List.mem_map]
  constructor
  · rintro ⟨i, hi, rfl⟩
    have h := mem_prioritize.1 hi
    exact ⟨h.1, h.2.1, h.2.2.1⟩
  · rintro ⟨hu, h1, h2⟩
    exact ⟨mkWorkItem g fs report u, mem_prioritize.2 ⟨hu, h1, h2, rfl⟩, rfl⟩

/-! ### Python report lemma -/

theorem pythonReport_foldl_uncovered (files : List (String × ℚ × List Int))
    (rep : CoverageReport) :
    (files.foldl
      (fun rep entry =>
        { rep with
          fileCoverage := mapInsert entry.1 entry.2.1 rep.fileCoverage,
          uncoveredFiles :=
            if 0 < entry.2.2.length then rep.uncoveredFiles ++ [entry.1]
            else rep.uncoveredFiles,
          uncoveredLines :=
            if 0 < entry.2.2.length then
              mapInsert entry.1 entry.2.2 rep.uncoveredLines
            else rep.uncoveredLines })
      rep).uncoveredFiles =
    rep.uncoveredFiles ++
      (files.filter fun e => 0 < e.2.2.length).map (fun e => e.1) := by
  induction files generalizing rep with
  | nil => simp
  | cons e es ih =>
      by_cases h : 0 < e.2.2.length
      · simp [List.foldl_cons, List.filter_cons, h, ih]
      · simp [List.foldl_cons, List.filter_cons, h, ih]

theorem pythonReport_uncoveredFiles (total : ℚ)
    (files : List (String × ℚ × List Int)) :
    (pythonReportOfFiles total files).uncoveredFiles =
      (files.filter fun e => 0 < e.2.2.length).map (fun e => e.1) := by
  unfold pythonReportOfFiles
  rw [pythonReport_foldl_uncovered]
  rfl

/-! ### Ledger lemmas -/

theorem ledgerStep_refl (s : State) : ledgerStep s s :=
  ⟨fun _ h => h, fun _ _ h => h, fun _ _ => rfl, fun _ _ => rfl⟩

theorem ledgerStep_trans {s1 s2 s3 : State} (h12 : ledgerStep s1 s2)
    (h23 : ledgerStep s2 s3) : ledgerStep s1 s3 := by
  obtain ⟨p12, f12, pf12, fp12⟩ := h12
  obtain ⟨p23, f23, pf23, fp23⟩ := h23
  refine ⟨fun u h => p23 u (p12 u h), fun u msg h => f23 u msg (f12 u msg h),
    fun u h => ?_, fun u h => ?_⟩
  · rw [pf23 u (p12 u h), pf12 u h]
  · obtain ⟨msg, hmsg⟩ := Option.isSome_iff_exists.1 h
    have h2 : mapLookup u s2.failedFiles = some msg := f12 u msg hmsg
    rw [fp23 u (by simp [h2]), fp12 u h]

theorem ledgerStep_of_eq {s s' : State}
    (hp : s'.processedFiles = s.processedFiles)
    (hf : s'.failedFiles = s.failedFiles) :
    ledgerStep s s' ∧ (ledgerOK s → ledgerOK s') := by
  constructor
  · refine ⟨fun u h => ?_, fun u msg h => ?_, fun u _ => ?_, fun u _ => ?_⟩
    · rwa [isFileProcessed, mapLookupD, hp]
    · rwa [hf]
    · rw [hf]
    · rw [isFileProcessed, mapLookupD, hp]
      rfl
  · intro hOK u h
    rw [isFileProcessed, mapLookupD, hp] at h
    rw [hf]
    exact hOK u h

theorem isFileProcessed_markFileProcessed (s : State) (u v : String) :
    isFileProcessed (markFileProcessed u s) v =
      if v = u then true else isFileProcessed s v := by
  by_cases h : v = u
  · subst h
    simp [isFileProcessed, mapLookupD, markFileProcessed,
      mapLookup_mapInsert_self]
  · simp [isFileProcessed, mapLookupD, markFileProcessed,
      mapLookup_mapInsert_ne _ _ h, h]

theorem failedFiles_markFileFailed (s : State) (u v : String) (msg : String) :
    mapLookup v (markFileFailed u msg s).failedFiles =
      if v = u then some msg else mapLookup v s.failedFiles := by
  by_cases h : v = u
  · subst h
    simp [markFileFailed, mapLookup_mapInsert_self]
  · simp [markFileFailed, mapLookup_mapInsert_ne _ _ h, h]

theorem ledger_markFileProcessed {s : State} {u : String}
    (h2 : mapLookup u s.failedFiles = none) :
    ledgerStep s (markFileProcessed u s) ∧
    (ledgerOK s → ledgerOK (markFileProcessed u s)) := by
  constructor
  · refine ⟨fun v h => ?_, fun v msg h => h, fun v _ => rfl, fun v h => ?_⟩
    · rw [isFileProcessed_markFileProcessed]
      by_cases hv : v = u <;> simp [hv, h]
    · rw [isFileProcessed_markFileProcessed]
      by_cases hv : v = u
      · subst hv
        rw [h2] at h
        simp at h
      · simp [hv]
  · intro hOK v h
    rw [isFileProcessed_markFileProcessed] at h
    by_cases hv : v = u
    · subst hv
      exact h2
    · rw [if_neg hv] at h
      exact hOK v h

theorem ledger_markFileFailed {s : State} {u : String} (msg : String)
    (h1 : isFileProcessed s u = false)
    (h2 : mapLookup u s.failedFiles = none) :
    ledgerStep s (markFileFailed u msg s) ∧
    (ledgerOK s → ledgerOK (markFileFailed u msg s)) := by
  have hproc : ∀ v, isFileProcessed (markFileFailed u msg s) v =
      isFileProcessed s v := fun v => rfl
  constructor
  · refine ⟨fun v h => by rwa [hproc], fun v msg' h => ?_,
      fun v h => ?_, fun v h => by rw [hproc]⟩
    · rw [failedFiles_markFileFailed]
      by_cases hv : v = u
      · subst hv
        rw [h2] at h
        exact absurd h (by simp)
      · simpa [hv] using h
    · rw [failedFiles_markFileFailed]
      by_cases hv : v = u
      · subst hv
        rw [h] at h1
        simp at h1
      · simp [hv]
  · intro hOK v h
    rw [hproc] at h
    rw [failedFiles_markFileFailed]
    by_cases hv : v = u
    · subst hv
      rw [h] at h1
      simp at h1
    · rw [if_neg hv]
      exact hOK v h

/-! ### processFile ledger behaviour -/

theorem processFile_spec (cfg : ConfigM) (env : ProcEnv) (item : WorkItem)
    (m : Machine) :
    (∃ e, (processFile cfg env item m).2 = some e ∧
      (processFile cfg env item m).1.state.processedFiles =
        m.state.processedFiles ∧
      (processFile cfg env item m).1.state.failedFiles =
        m.state.failedFiles) ∨
    ((processFile cfg env item m).2 = none ∧
      (((processFile cfg env item m).1.state.processedFiles =
          mapInsert item.sourceFile true m.state.processedFiles ∧
        (processFile cfg env item m).1.state.failedFiles =
          m.state.failedFiles) ∨
       (∃ msg, (processFile cfg env item m).1.state.processedFiles =
          m.state.processedFiles ∧
        (processFile cfg env item m).1.state.failedFiles =
          mapInsert item.sourceFile msg m.state.failedFiles))) := by
  by_cases hc : env.cancelled
  · refine Or.inl ⟨ctxCanceledErr, ?_, ?_, ?_⟩ <;> simp [processFile, hc]
  · have hc' : env.cancelled = false := by simpa using hc
    cases hte : item.testFileIsPresent with
    | false =>
        cases hdr : cfg.dryRun with
        | false =>
            cases hg : generateTestForFile env.gen
                (cfg.getTestFilePath item.sourceFile) with
            | error e =>
                refine Or.inl ⟨.wrapped "failed to generate test" e,
                  ?_, ?_, ?_⟩ <;>
                  simp [processFile, hc', hte, hdr, hg, mRecordAPICall,
                    recordAPICall]
            | ok tf =>
                cases hv : (validateAndRetry env.val 2).result with
                | error e =>
                    refine Or.inl ⟨.wrapped "validation error" e,
                      ?_, ?_, ?_⟩ <;>
                      simp [processFile, hc', hte, hdr, hg, hv,
                        mRecordAPICall, recordAPICall, addGeneratedTest]
                | ok r =>
                    cases hs : r.success with
                    | false =>
                        refine Or.inr ⟨?_, Or.inr
                          ⟨r.errorMessage, ?_, ?_⟩⟩ <;>
                          simp [processFile, hc', hte, hdr, hg, hv, hs,
                            mRecordAPICall, recordAPICall, addGeneratedTest,
                            markFileFailed]
                    | true =>
                        refine Or.inr ⟨?_, Or.inl ⟨?_, ?_⟩⟩ <;>
                          simp [processFile, hc', hte, hdr, hg, hv, hs,
                            mRecordAPICall, recordAPICall, addGeneratedTest,
                            markFileProcessed]
        | true =>
            refine Or.inr ⟨?_, Or.inl ⟨?_, ?_⟩⟩ <;>
              simp [processFile, hc', hte, hdr, markFileProcessed]
    | true =>
        cases hdr : cfg.dryRun with
        | false =>
            cases hg : improveExistingTest env.improve item.testFile with
            | error e =>
                refine Or.inl ⟨.wrapped "failed to improve test" e,
                  ?_, ?_, ?_⟩ <;>
                  simp [processFile, hc', hte, hdr, hg, mRecordAPICall,
                    recordAPICall]
            | ok tf =>
                cases hv : (validateAndRetry env.val 2).result with
                | error e =>
                    refine Or.inl ⟨.wrapped "validation error" e,
                      ?_, ?_, ?_⟩ <;>
                      simp [processFile, hc', hte, hdr, hg, hv,
                        mRecordAPICall, recordAPICall, addFixedTest]
                | ok r =>
                    cases hs : r.success with
                    | false =>
                        refine Or.inr ⟨?_, Or.inr
                          ⟨r.errorMessage, ?_, ?_⟩⟩ <;>
                          simp [processFile, hc', hte, hdr, hg, hv, hs,
                            mRecordAPICall, recordAPICall, addFixedTest,
                            markFileFailed]
                    | true =>
                        refine Or.inr ⟨?_, Or.inl ⟨?_, ?_⟩⟩ <;>
                          simp [processFile, hc', hte, hdr, hg, hv, hs,
                            mRecordAPICall, recordAPICall, addFixedTest,
                            markFileProcessed]
        | true =>
            refine Or.inr ⟨?_, Or.inl ⟨?_, ?_⟩⟩ <;>
              simp [processFile, hc', hte, hdr, markFileProcessed]

theorem ledger_neutral {s s' : State}
    (hp : s'.processedFiles = s.processedFiles)
    (hf : s'.failedFiles = s.failedFiles) (hOK : ledgerOK s) :
    ledgerOK s' ∧ ledgerStep s s' :=
  ⟨(ledgerStep_of_eq hp hf).2 hOK, (ledgerStep_of_eq hp hf).1⟩

theorem ledger_like {s s' t : State}
    (hp : s'.processedFiles = t.processedFiles)
    (hf : s'.failedFiles = t.failedFiles)
    (h : ledgerStep s t ∧ (ledgerOK s → ledgerOK t)) (hOK : ledgerOK s) :
    ledgerOK s' ∧ ledgerStep s s' := by
  have h2 := ledgerStep_of_eq hp hf
  exact ⟨h2.2 (h.2 hOK), ledgerStep_trans h.1 h2.1⟩

theorem runSelect_ledger (cfg : ConfigM) (env : IterEnv)
    (report : CoverageReport) (m : Machine) (hOK : ledgerOK m.state) :
    ledgerOK (stepMachine (runSelect cfg env report m)).state ∧
    ledgerStep m.state (stepMachine (runSelect cfg env report m)).state := by
  unfold runSelect
  cases hpi : prioritizeWorkItems cfg.getTestFilePath env.fsExists
      report m.state with
  | nil =>
      simp only [stepMachine]
      exact ledger_neutral rfl rfl hOK
  | cons item rest =>
      have hmem : item ∈ prioritizeWorkItems cfg.getTestFilePath env.fsExists
          report m.state := by rw [hpi]; exact List.mem_cons_self _ _
      have helig := mem_prioritize.1 hmem
      have h1 : isFileProcessed m.state item.sourceFile = false := helig.2.1
      have h2 : mapLookup item.sourceFile m.state.failedFiles = none :=
        helig.2.2.1
      dsimp only
      rcases processFile_spec cfg env.proc item m with
        ⟨e, he, hp, hf⟩ | ⟨he, ⟨hp, hf⟩ | ⟨msg, hp, hf⟩⟩
      · rw [he]
        dsimp only
        cases hrl : asRateLimitErr e with
        | some tr =>
            obtain ⟨t, r⟩ := tr
            dsimp only
            simp only [stepMachine]
            exact ledger_neutral
              (by simp [mSave, saveStateData, setRateLimitReset, hp])
              (by simp [mSave, saveStateData, setRateLimitReset, hf]) hOK
        | none =>
            dsimp only
            simp only [stepMachine]
            refine ledger_like (t := markFileFailed item.sourceFile
              (errString e) m.state) ?_ ?_
              (ledger_markFileFailed (errString e) h1 h2) hOK
            · simp [mSave, saveStateData, markFileFailed, hp]
            · simp [mSave, saveStateData, markFileFailed, hf]
      · rw [he]
        dsimp only
        simp only [stepMachine]
        refine ledger_like (t := markFileProcessed item.sourceFile m.state)
          ?_ ?_ (ledger_markFileProcessed h2) hOK
        · simp [mSave, saveStateData, markFileProcessed, hp]
        · simp [mSave, saveStateData, markFileProcessed, hf]
      · rw [he]
        dsimp only
        simp only [stepMachine]
        refine ledger_like (t := markFileFailed item.sourceFile msg m.state)
          ?_ ?_ (ledger_markFileFailed msg h1 h2) hOK
        · simp [mSave, saveStateData, markFileFailed, hp]
        · simp [mSave, saveStateData, markFileFailed, hf]

theorem runIterCore_ledger (cfg : ConfigM) (env : IterEnv) (m : Machine)
    (hOK : ledgerOK m.state) :
    ledgerOK (stepMachine (runIterCore cfg env m)).state ∧
    ledgerStep m.state (stepMachine (runIterCore cfg env m)).state := by
  unfold runIterCore
  cases hms : env.measure with
  | error e =>
      simp only [stepMachine]
      exact ledger_neutral rfl rfl hOK
  | ok report =>
      by_cases htgt : cfg.targetCoverage ≤ report.totalCoverage
      · simp only [htgt, if_true, stepMachine]
        exact ledger_neutral rfl rfl hOK
      · simp only [htgt, if_false]
        have h := runSelect_ledger cfg env report
          (mSnapshot report.totalCoverage { m with state :=
            { m.state with currentIteration :=
                m.state.currentIteration + 1 } })
          (by intro u hu; exact hOK u hu)
        exact ⟨h.1, ledgerStep_trans (ledgerStep_of_eq rfl rfl).1 h.2⟩

theorem runIter_ledger (cfg : ConfigM) (env : IterEnv) (m : Machine)
    (hOK : ledgerOK m.state) :
    ledgerOK (stepMachine (runIter cfg env m)).state ∧
    ledgerStep m.state (stepMachine (runIter cfg env m)).state := by
  unfold runIter
  by_cases hmax : m.state.currentIteration < cfg.maxIterations
  swap
  · simp only [hmax, not_false_eq_true, if_true, stepMachine]
    exact ledger_neutral rfl rfl hOK
  simp only [hmax, not_true_eq_false, if_false]
  by_cases hcanc : env.cancelled
  · simp only [hcanc, if_true, stepMachine]
    exact ledger_neutral rfl rfl hOK
  simp only [hcanc, Bool.false_eq_true, if_false]
  by_cases hwait : (shouldWaitForRateLimit m.state m.clock = true)
  · simp only [hwait, if_true]
    by_cases hcw : env.cancelledDuringWait
    · simp only [hcw, and_self, if_true, stepMachine]
      exact ledger_neutral rfl rfl hOK
    · simp only [hcw, Bool.false_eq_true, and_false, if_false]
      have h := runIterCore_ledger cfg env
        { mSave m with
          clock := max (mSave m).clock (mSave m).state.rateLimitResetTime }
        (by intro u hu; exact hOK u hu)
      exact ⟨h.1, ledgerStep_trans (ledgerStep_of_eq rfl rfl).1 h.2⟩
  · simp only [hwait, Bool.false_eq_true, if_false, false_and]
    exact runIterCore_ledger cfg env m hOK

/-! ### Loop-level lemmas -/

theorem runLoop_ledger (cfg : ConfigM) (envs : Nat → IterEnv) :
    ∀ (fuel i : Nat) (m : Machine), ledgerOK m.state →
    ledgerOK (runLoop cfg envs i fuel m).1.state ∧
    ledgerStep m.state (runLoop cfg envs i fuel m).1.state := by
  intro fuel
  induction fuel with
  | zero => exact fun i m hOK => ⟨hOK, ledgerStep_refl m.state⟩
  | succ fuel ih =>
      intro i m hOK
      have h := runIter_ledger cfg (envs i) m hOK
      cases hstep : runIter cfg (envs i) m with
      | halt mh r =>
          rw [hstep] at h
          simp only [stepMachine] at h
          simp only [runLoop, hstep]
          exact h
      | cont mc =>
          rw [hstep] at h
          simp only [stepMachine] at h
          simp only [runLoop, hstep]
          have h2 := ih (i + 1) mc h.1
          exact ⟨h2.1, ledgerStep_trans h.2 h2.2⟩

theorem runLoop_fuel_comp (cfg : ConfigM) (envs : Nat → IterEnv) :
    ∀ (a b i : Nat) (m m' : Machine),
    runLoop cfg envs i a m = (m', none) →
    runLoop cfg envs i (a + b) m = runLoop cfg envs (i + a) b m' := by
  intro a
  induction a with
  | zero =>
      intro b i m m' h
      simp only [runLoop] at h
      cases h
      rw [Nat.zero_add, Nat.add_zero]
  | succ a ih =>
      intro b i m m' h
      simp only [runLoop] at h
      rw [Nat.succ_add, runLoop]
      cases hstep : runIter cfg (envs i) m with
      | halt mh r =>
          rw [hstep] at h
          exact absurd (Prod.mk.injEq .. ▸ h).2 (by simp)
      | cont mc =>
          rw [hstep] at h
          simp only at h
          simp only [hstep]
          have hi : i + 1 + a = i + (a + 1) := by omega
          rw [ih b (i + 1) mc m' h, hi]

theorem runLoop_halt_abs (cfg : ConfigM) (envs : Nat → IterEnv) :
    ∀ (a b i : Nat) (m m' : Machine) (r : StopReason),
    runLoop cfg envs i a m = (m', some r) →
    runLoop cfg envs i (a + b) m = (m', some r) := by
  intro a
  induction a with
  | zero =>
      intro b i m m' r h
      simp only [runLoop] at h
      cases h
  | succ a ih =>
      intro b i m m' r h
      simp only [runLoop] at h
      rw [Nat.succ_add, runLoop]
      cases hstep : runIter cfg (envs i) m with
      | halt mh rh =>
          rw [hstep] at h
          simp only at h
          simp only [hstep]
          exact h
      | cont mc =>
          rw [hstep] at h
          simp only at h
          simp only [hstep]
          exact ih b (i + 1) mc m' r h

theorem runMain_ledger (cfg : ConfigM)
    (initialMeasure : Except GoErr CoverageReport) (envs : Nat → IterEnv)
    (fuel : Nat) (m : Machine) (hOK : ledgerOK m.state) :
    ledgerOK (runMain cfg initialMeasure envs fuel m).1.state ∧
    ledgerStep m.state (runMain cfg initialMeasure envs fuel m).1.state := by
  unfold runMain
  cases initialMeasure with
  | error e => exact ⟨hOK, ledgerStep_refl _⟩
  | ok report =>
      by_cases h1 : 0 < cfg.targetCoverage - report.totalCoverage
      case neg =>
        simp only [h1, if_false]
        exact ledger_neutral rfl rfl hOK
      by_cases h2 : needsTestGeneration
          (mSnapshot report.totalCoverage m).state = false
      · simp only [h1, h2, if_true]
        exact ledger_neutral rfl rfl hOK
      · simp only [h1, h2, if_true, Bool.false_eq_true, if_false]
        have h := runLoop_ledger cfg envs fuel 0
          (mSnapshot report.totalCoverage m) (fun u hu => hOK u hu)
        exact ⟨h.1, ledgerStep_trans (ledgerStep_of_eq rfl rfl).1 h.2⟩

theorem ledgerOK_machineNew (cfg : ConfigM) (language : String) (t0 : Nat) :
    ledgerOK (machineNew cfg language t0).state := by
  intro u hu
  simp [machineNew, newState, isFileProcessed, mapLookupD, mapLookup] at hu

/-! ### ValidateAndRetry lemmas -/

theorem varLoop_fixCalls_le (env : ValEnv) :
    ∀ (rem fixes : Nat), (varLoop env rem fixes).fixCalls ≤ rem - 1 := by
  intro rem
  induction rem with
  | zero => intro fixes; simp [varLoop]
  | succ rem ih =>
      intro fixes
      unfold varLoop
      cases hv : validateTest (env.analyzerOutcome fixes) with
      | error e => simp
      | ok r =>
          by_cases hs : r.success
          · simp [hs]
          · simp only [hs, Bool.false_eq_true, if_false]
            by_cases hrem : 0 < rem
            · simp only [hrem, if_true]
              cases hf : fixBrokenTest (env.fixCall fixes) env.testFile with
              | error e => simp; omega
              | ok tf =>
                  simp only
                  have h := ih (fixes + 1)
                  omega
            · simp only [hrem, if_false]
              have h := ih fixes
              omega

theorem varLoop_result_ok (env : ValEnv) :
    ∀ (rem fixes : Nat) (r : ValidationResult),
    (varLoop env rem fixes).result = .ok r →
    validateTest (env.analyzerOutcome
      (fixes + (varLoop env rem fixes).fixWrites)) = .ok r := by
  intro rem
  induction rem with
  | zero =>
      intro fixes r h
      simp only [varLoop] at h ⊢
      rw [Nat.add_zero]
      exact h
  | succ rem ih =>
      intro fixes r h
      rw [varLoop] at h ⊢
      cases hv : validateTest (env.analyzerOutcome fixes) with
      | error e => rw [hv] at h; simp at h
      | ok r0 =>
          rw [hv] at h
          dsimp only at h ⊢
          by_cases hs : r0.success
          · simp only [hs, if_true] at h ⊢
            simp only [Except.ok.injEq] at h
            subst h
            simpa using hv
          · simp only [hs, Bool.false_eq_true, if_false] at h ⊢
            by_cases hrem : 0 < rem
            · simp only [hrem, if_true] at h ⊢
              cases hf : fixBrokenTest (env.fixCall fixes) env.testFile with
              | error e => rw [hf] at h; simp at h
              | ok tf =>
                  rw [hf] at h
                  dsimp only at h ⊢
                  have h2 := ih (fixes + 1) r h
                  have harith : fixes +
                      ((varLoop env rem (fixes + 1)).fixWrites + 1) =
                      fixes + 1 + (varLoop env rem (fixes + 1)).fixWrites := by
                    omega
                  rw [harith]
                  exact h2
            · simp only [hrem, if_false] at h ⊢
              exact ih fixes r h

theorem varLoop_earlier_failed (env : ValEnv) :
    ∀ (rem fixes j : Nat), j < (varLoop env rem fixes).fixWrites →
    ∃ rf, validateTest (env.analyzerOutcome (fixes + j)) = .ok rf ∧
      rf.success = false := by
  intro rem
  induction rem with
  | zero => intro fixes j h; simp [varLoop] at h
  | succ rem ih =>
      intro fixes j h
      rw [varLoop] at h
      cases hv : validateTest (env.analyzerOutcome fixes) with
      | error e => rw [hv] at h; simp at h
      | ok r0 =>
          rw [hv] at h
          dsimp only at h
          by_cases hs : r0.success
          · simp [hs] at h
          · simp only [hs, Bool.false_eq_true, if_false] at h
            by_cases hrem : 0 < rem
            · simp only [hrem, if_true] at h
              cases hf : fixBrokenTest (env.fixCall fixes) env.testFile with
              | error e => rw [hf] at h; simp at h
              | ok tf =>
                  rw [hf] at h
                  dsimp only at h
                  cases j with
                  | zero => exact ⟨r0, by simpa using hv, by simpa using hs⟩
                  | succ j =>
                      have h2 := ih (fixes + 1) j (by omega)
                      obtain ⟨rf, h3, h4⟩ := h2
                      refine ⟨rf, ?_, h4⟩
                      have : fixes + (j + 1) = fixes + 1 + j := by omega
                      rwa [this]
            · simp only [hrem, if_false] at h
              exact ih fixes j h

/-! ### Coverage-history lemmas -/

theorem histOK_frame {m m' : Machine}
    (hh : m'.state.coverageHistory = m.state.coverageHistory)
    (hi : m.state.currentIteration ≤ m'.state.currentIteration)
    (hc : m.clock ≤ m'.clock) (h : histOK m) : histOK m' := by
  obtain ⟨h1, h2, h3⟩ := h
  refine ⟨hh ▸ h1, hh ▸ h2, ?_⟩
  intro e he
  rw [hh] at he
  exact ⟨(h3 e he).1.trans hi, Nat.lt_of_lt_of_le (h3 e he).2 hc⟩

theorem histOK_mSave {m : Machine} (h : histOK m) : histOK (mSave m) :=
  @histOK_frame m (mSave m) rfl (le_refl _) (Nat.le_succ _) h

theorem histOK_mSnapshot {m : Machine} (c : ℚ) (h : histOK m) :
    histOK (mSnapshot c m) ∧
    (mSnapshot c m).state.coverageHistory = m.state.coverageHistory ++
      [{ timestamp := m.clock, coverage := c,
         iteration := m.state.currentIteration,
         filesAdded := m.state.generatedTests.length +
           m.state.fixedTests.length }] := by
  obtain ⟨h1, h2, h3⟩ := h
  refine ⟨⟨?_, ?_, ?_⟩, rfl⟩ <;>
    simp only [mSnapshot, addCoverageSnapshot]
  · rw [List.chain'_append]
    refine ⟨h1, List.chain'_singleton _, ?_⟩
    intro x hx y hy
    simp only [List.head?_cons, Option.mem_def, Option.some.injEq] at hy
    subst hy
    have hxm : x ∈ m.state.coverageHistory := by
      obtain ⟨hne, hxe⟩ := List.mem_getLast?_eq_getLast hx
      exact hxe ▸ List.getLast_mem hne
    exact (h3 x hxm).1
  · rw [List.chain'_append]
    refine ⟨h2, List.chain'_singleton _, ?_⟩
    intro x hx y hy
    simp only [List.head?_cons, Option.mem_def, Option.some.injEq] at hy
    subst hy
    have hxm : x ∈ m.state.coverageHistory := by
      obtain ⟨hne, hxe⟩ := List.mem_getLast?_eq_getLast hx
      exact hxe ▸ List.getLast_mem hne
    exact (h3 x hxm).2
  · intro e he
    rcases List.mem_append.1 he with he | he
    · exact ⟨(h3 e he).1, Nat.lt_succ_of_lt (h3 e he).2⟩
    · simp only [List.mem_singleton] at he
      subst he
      exact ⟨le_refl _, Nat.lt_succ_self _⟩

theorem processFile_frame (cfg : ConfigM) (env : ProcEnv) (item : WorkItem)
    (m : Machine) :
    (processFile cfg env item m).1.state.coverageHistory =
      m.state.coverageHistory ∧
    (processFile cfg env item m).1.state.currentIteration =
      m.state.currentIteration ∧
    m.clock ≤ (processFile cfg env item m).1.clock := by
  by_cases hc : env.cancelled
  · refine ⟨?_, ?_, ?_⟩ <;> simp [processFile, hc]
  · have hc' : env.cancelled = false := by simpa using hc
    cases hte : item.testFileIsPresent with
    | false =>
        cases hdr : cfg.dryRun with
        | false =>
            cases hg : generateTestForFile env.gen
                (cfg.getTestFilePath item.sourceFile) with
            | error e =>
                refine ⟨?_, ?_, ?_⟩ <;>
                  simp [processFile, hc', hte, hdr, hg, mRecordAPICall,
                    recordAPICall]
            | ok tf =>
                cases hv : (validateAndRetry env.val 2).result with
                | error e =>
                    refine ⟨?_, ?_, ?_⟩ <;>
                      simp [processFile, hc', hte, hdr, hg, hv,
                        mRecordAPICall, recordAPICall, addGeneratedTest]
                | ok r =>
                    cases hs : r.success with
                    | false =>
                        refine ⟨?_, ?_, ?_⟩ <;>
                          simp [processFile, hc', hte, hdr, hg, hv, hs,
                            mRecordAPICall, recordAPICall, addGeneratedTest,
                            markFileFailed]
                    | true =>
                        refine ⟨?_, ?_, ?_⟩ <;>
                          simp [processFile, hc', hte, hdr, hg, hv, hs,
                            mRecordAPICall, recordAPICall, addGeneratedTest,
                            markFileProcessed]
        | true =>
            refine ⟨?_, ?_, ?_⟩ <;>
              simp [processFile, hc', hte, hdr, markFileProcessed]
    | true =>
        cases hdr : cfg.dryRun with
        | false =>
            cases hg : improveExistingTest env.improve item.testFile with
            | error e =>
                refine ⟨?_, ?_, ?_⟩ <;>
                  simp [processFile, hc', hte, hdr, hg, mRecordAPICall,
                    recordAPICall]
            | ok tf =>
                cases hv : (validateAndRetry env.val 2).result with
                | error e =>
                    refine ⟨?_, ?_, ?_⟩ <;>
                      simp [processFile, hc', hte, hdr, hg, hv,
                        mRecordAPICall, recordAPICall, addFixedTest]
                | ok r =>
                    cases hs : r.success with
                    | false =>
                        refine ⟨?_, ?_, ?_⟩ <;>
                          simp [processFile, hc', hte, hdr, hg, hv, hs,
                            mRecordAPICall, recordAPICall, addFixedTest,
                            markFileFailed]
                    | true =>
                        refine ⟨?_, ?_, ?_⟩ <;>
                          simp [processFile, hc', hte, hdr, hg, hv, hs,
                            mRecordAPICall, recordAPICall, addFixedTest,
                            markFileProcessed]
        | true =>
            refine ⟨?_, ?_, ?_⟩ <;>
              simp [processFile, hc', hte, hdr, markFileProcessed]

theorem runSelect_hist (cfg : ConfigM) (env : IterEnv)
    (report : CoverageReport) (m : Machine) :
    (stepMachine (runSelect cfg env report m)).state.coverageHistory =
      m.state.coverageHistory ∧
    (histOK m → histOK (stepMachine (runSelect cfg env report m))) := by
  unfold runSelect
  cases hpi : prioritizeWorkItems cfg.getTestFilePath env.fsExists
      report m.state with
  | nil => exact ⟨rfl, fun h => histOK_mSave h⟩
  | cons item rest =>
      dsimp only
      obtain ⟨hh, hi, hcl⟩ := processFile_frame cfg env.proc item m
      cases pr2 : (processFile cfg env.proc item m).2 with
      | none =>
          dsimp only [stepMachine]
          refine ⟨hh, fun h => @histOK_frame m _ hh (le_of_eq hi.symm)
            (hcl.trans (Nat.le_succ _)) h⟩
      | some e =>
          dsimp only
          cases hrl : asRateLimitErr e with
          | some tr =>
              obtain ⟨t, r⟩ := tr
              dsimp only [stepMachine]
              refine ⟨hh, fun h => @histOK_frame m _ hh (le_of_eq hi.symm)
                (hcl.trans (Nat.le_succ _)) h⟩
          | none =>
              dsimp only [stepMachine]
              refine ⟨hh, fun h => @histOK_frame m _ hh (le_of_eq hi.symm)
                (hcl.trans (Nat.le_succ _)) h⟩

theorem runIterCore_hist (cfg : ConfigM) (env : IterEnv) (m : Machine) :
    (∃ t, (stepMachine (runIterCore cfg env m)).state.coverageHistory =
      m.state.coverageHistory ++ t) ∧
    (histOK m → histOK (stepMachine (runIterCore cfg env m))) := by
  unfold runIterCore
  have hm1 : histOK m → histOK { m with state :=
      { m.state with currentIteration := m.state.currentIteration + 1 } } :=
    fun h => @histOK_frame m _ rfl (Nat.le_succ _) (le_refl _) h
  cases hms : env.measure with
  | error e =>
      exact ⟨⟨[], by simp [stepMachine]⟩, fun h => hm1 h⟩
  | ok report =>
      by_cases htgt : cfg.targetCoverage ≤ report.totalCoverage
      · simp only [htgt, if_true]
        refine ⟨⟨[snapEntry m report.totalCoverage], rfl⟩, fun h => ?_⟩
        dsimp only [stepMachine]
        exact histOK_mSave ((histOK_mSnapshot report.totalCoverage (hm1 h)).1)
      · simp only [htgt, if_false]
        have hsel := runSelect_hist cfg env report
          (mSnapshot report.totalCoverage { m with state :=
            { m.state with currentIteration := m.state.currentIteration + 1 } })
        refine ⟨⟨[snapEntry m report.totalCoverage], ?_⟩, fun h => hsel.2
          ((histOK_mSnapshot report.totalCoverage (hm1 h)).1)⟩
        rw [hsel.1]
        rfl

theorem runIter_hist (cfg : ConfigM) (env : IterEnv) (m : Machine) :
    (∃ t, (stepMachine (runIter cfg env m)).state.coverageHistory =
      m.state.coverageHistory ++ t) ∧
    (histOK m → histOK (stepMachine (runIter cfg env m))) := by
  unfold runIter
  by_cases hmax : m.state.currentIteration < cfg.maxIterations
  swap
  · simp only [hmax, not_false_eq_true, if_true]
    exact ⟨⟨[], by simp [stepMachine, mSave, saveStateData]⟩,
      fun h => histOK_mSave h⟩
  simp only [hmax, not_true_eq_false, if_false]
  by_cases hcanc : env.cancelled
  · simp only [hcanc, if_true]
    exact ⟨⟨[], by simp [stepMachine, mSave, saveStateData]⟩,
      fun h => histOK_mSave h⟩
  simp only [hcanc, Bool.false_eq_true, if_false]
  by_cases hwait : (shouldWaitForRateLimit m.state m.clock = true)
  · simp only [hwait, if_true]
    by_cases hcw : env.cancelledDuringWait
    · simp only [hcw, and_self, if_true]
      exact ⟨⟨[], by simp [stepMachine, mSave, saveStateData]⟩,
        fun h => histOK_mSave (histOK_mSave h)⟩
    · simp only [hcw, Bool.false_eq_true, and_false, if_false]
      have h2 := runIterCore_hist cfg env
        { mSave m with
          clock := max (mSave m).clock (mSave m).state.rateLimitResetTime }
      refine ⟨h2.1, fun h => h2.2 ?_⟩
      exact @histOK_frame (mSave m) _ rfl (le_refl _)
        (Nat.le_max_left _ _) (histOK_mSave h)
  · simp only [hwait, Bool.false_eq_true, if_false, false_and]
    exact runIterCore_hist cfg env m

theorem runLoop_hist (cfg : ConfigM) (envs : Nat → IterEnv) :
    ∀ (fuel i : Nat) (m : Machine),
    (∃ t, (runLoop cfg envs i fuel m).1.state.coverageHistory =
      m.state.coverageHistory ++ t) ∧
    (histOK m → histOK (runLoop cfg envs i fuel m).1) := by
  intro fuel
  induction fuel with
  | zero => exact fun i m => ⟨⟨[], by simp [runLoop]⟩, fun h => h⟩
  | succ fuel ih =>
      intro i m
      have h1 := runIter_hist cfg (envs i) m
      cases hstep : runIter cfg (envs i) m with
      | halt mh r =>
          rw [hstep] at h1
          simp only [stepMachine] at h1
          simp only [runLoop, hstep]
          exact h1
      | cont mc =>
          rw [hstep] at h1
          simp only [stepMachine] at h1
          simp only [runLoop, hstep]
          have h2 := ih (i + 1) mc
          refine ⟨?_, fun h => h2.2 (h1.2 h)⟩
          obtain ⟨t1, ht1⟩ := h1.1
          obtain ⟨t2, ht2⟩ := h2.1
          exact ⟨t1 ++ t2, by rw [ht2, ht1, List.append_assoc]⟩

theorem runMain_hist (cfg : ConfigM)
    (initM : Except GoErr CoverageReport) (envs : Nat → IterEnv)
    (fuel : Nat) (m : Machine) :
    (∃ t, (runMain cfg initM envs fuel m).1.state.coverageHistory =
      m.state.coverageHistory ++ t) ∧
    (histOK m → histOK (runMain cfg initM envs fuel m).1) := by
  unfold runMain
  cases initM with
  | error e => exact ⟨⟨[], by simp⟩, fun h => h⟩
  | ok report =>
      by_cases h1 : 0 < cfg.targetCoverage - report.totalCoverage
      case neg =>
        simp only [h1, if_false]
        exact ⟨⟨[snapEntry0 m report.totalCoverage], rfl⟩,
          fun h => histOK_mSave ((histOK_mSnapshot report.totalCoverage h).1)⟩
      by_cases h2 : needsTestGeneration
          (mSnapshot report.totalCoverage m).state = false
      · simp only [h1, h2, if_true]
        exact ⟨⟨[snapEntry0 m report.totalCoverage], rfl⟩,
          fun h => histOK_mSave ((histOK_mSnapshot report.totalCoverage h).1)⟩
      · have h2' : needsTestGeneration
            (mSnapshot report.totalCoverage m).state = true := by
          simpa using h2
        simp only [h1, if_true, h2', Bool.true_eq_false, if_false]
        have h3 := runLoop_hist cfg envs fuel 0
          (mSnapshot report.totalCoverage m)
        refine ⟨?_, fun h => h3.2 ((histOK_mSnapshot report.totalCoverage h).1)⟩
        obtain ⟨t2, ht2⟩ := h3.1
        refine ⟨snapEntry0 m report.totalCoverage :: t2, ?_⟩
        rw [ht2, show (mSnapshot report.totalCoverage m).state.coverageHistory
          = m.state.coverageHistory ++ [snapEntry0 m report.totalCoverage]
          from rfl, List.append_assoc]
        rfl

theorem runMain_resumed_history (cfg : ConfigM) (rep : CoverageReport)
    (envs : Nat → IterEnv) (fuel : Nat) (saved : State) (t : Nat) :
    ∃ tail, (runMain cfg (.ok rep) envs fuel
      (machineResume saved t)).1.state.coverageHistory =
      saved.coverageHistory ++
        snapEntry0 (machineResume saved t) rep.totalCoverage :: tail := by
  unfold runMain
  by_cases h1 : 0 < cfg.targetCoverage - rep.totalCoverage
  case neg =>
    simp only [h1, if_false]
    exact ⟨[], rfl⟩
  by_cases h2 : needsTestGeneration
      (mSnapshot rep.totalCoverage (machineResume saved t)).state = false
  · simp only [h1, h2, if_true]
    exact ⟨[], rfl⟩
  · have h2' : needsTestGeneration
        (mSnapshot rep.totalCoverage (machineResume saved t)).state =
        true := by
      simpa using h2
    simp only [h1, if_true, h2', Bool.true_eq_false, if_false]
    obtain ⟨t2, ht2⟩ := (runLoop_hist cfg envs fuel 0
      (mSnapshot rep.totalCoverage (machineResume saved t))).1
    refine ⟨t2, ?_⟩
    rw [ht2, show (mSnapshot rep.totalCoverage
      (machineResume saved t)).state.coverageHistory =
      saved.coverageHistory ++
        [snapEntry0 (machineResume saved t) rep.totalCoverage] from rfl,
      List.append_assoc]
    rfl

/-! # Claim theorems -/

/-- Claim C2, counterexample.  The claim says that in the prioritizer
output any unit with lower coverage appears before any unit with
higher coverage, and that the result depends on nothing but the
CoverageModel and the SessionState (not the file system).  Both fail
at this concrete input: `a.go` has coverage 50.75 and `b.go` has
coverage 50.5, the integer-truncated priorities `int(100 − c)` are
both 49, and on this two-element slice `sort.Slice` runs its
insertion-sort base case, which keeps the CoverageModel order, so the
higher-covered `a.go` precedes the lower-covered `b.go`; moreover two
file systems that differ on the test-file probe give different
work-item sequences (the `Exists` flag differs). -/
theorem c2_counterexample :
    ((prioritizeWorkItems goGetTestFilePath (fun _ => false)
        { totalCoverage := 50,
          fileCoverage := [("a.go", 203/4), ("b.go", 101/2)],
          uncoveredFiles := ["a.go", "b.go"], uncoveredLines := [],
          language := "Go" }
        (newState "p" 80 "Go" 0)).map (fun i => i.sourceFile) =
      ["a.go", "b.go"] ∧
      (101 : ℚ)/2 < 203/4) ∧
    prioritizeWorkItems goGetTestFilePath (fun _ => false)
        { totalCoverage := 50,
          fileCoverage := [("a.go", 203/4), ("b.go", 101/2)],
          uncoveredFiles := ["a.go", "b.go"], uncoveredLines := [],
          language := "Go" }
        (newState "p" 80 "Go" 0) ≠
      prioritizeWorkItems goGetTestFilePath (fun _ => true)
        { totalCoverage := 50,
          fileCoverage := [("a.go", 203/4), ("b.go", 101/2)],
          uncoveredFiles := ["a.go", "b.go"], uncoveredLines := [],
          language := "Go" }
        (newState "p" 80 "Go" 0) := by
  with_unfolding_all decide

/-- Claim C2 (amended).  Stated over every result `sort.Slice` is
permitted to return (`sortSliceOutcome`: some permutation of the
eligible list, non-increasing in priority).  For a fixed
CoverageModel and SessionState: an item is in the output exactly when
its unit is listed in the CoverageModel's UncoveredFiles and is in
neither ledger, and it is built by the loop body of
`prioritizeWorkItems`, so it carries priority `int(100 − coverage)`
(integer-truncated); the output is sorted by non-increasing priority,
so a unit whose truncated priority is strictly larger — in
particular, strictly lower coverage whose truncation differs — always
precedes one with smaller priority, while equal truncated priorities
carry no ordering guarantee (`sort.Slice` is documented unstable);
the eligible list itself — its units, coverages, uncovered lines and
priorities — is independent of the file-system probe, which only the
per-item `artifactExists` flag consults; and the executable sort of
the orchestrator model (`sortByPriority`, the insertion sort Go runs
on short slices) returns one admissible outcome. -/
theorem c2_prioritizer_properties (g : String → String)
    (fs : String → Bool) (report : CoverageReport) (s : State)
    (out : List WorkItem)
    (hout : sortSliceOutcome (workItemsOf g fs report s) out)
    (fs' : String → Bool) :
    (∀ i, i ∈ out ↔
      (i.sourceFile ∈ report.uncoveredFiles ∧
        isFileProcessed s i.sourceFile = false ∧
        mapLookup i.sourceFile s.failedFiles = none ∧
        i = mkWorkItem g fs report i.sourceFile)) ∧
    (∀ i ∈ out, i.priority = goTrunc (100 - i.currentCoverage)) ∧
    out.Pairwise (fun a b => b.priority ≤ a.priority) ∧
    out.Perm (workItemsOf g fs report s) ∧
    (workItemsOf g fs' report s).map itemKey =
      (workItemsOf g fs report s).map itemKey ∧
    sortSliceOutcome (workItemsOf g fs report s)
      (prioritizeWorkItems g fs report s) := by
  obtain ⟨hperm, hsorted⟩ := hout
  refine ⟨fun i => by rw [hperm.mem_iff, mem_workItemsOf], ?_, hsorted,
    hperm, workItemsOf_map_itemKey g fs' fs report s,
    sortByPriority_perm _, pairwise_sortByPriority _⟩
  intro i hi
  have h := mem_workItemsOf.1 (hperm.mem_iff.1 hi)
  rw [h.2.2.2]
  rfl

/-- Claim C2, witness: the amended statement instantiated at a
concrete report and state, with the executable sort's output as the
admissible `sort.Slice` outcome. -/
theorem c2_witness :
    (mkWorkItem goGetTestFilePath (fun _ => false) repC2 "a.go" ∈
      prioritizeWorkItems goGetTestFilePath (fun _ => false) repC2
        (newState "p" 80 "Go" 0)) ∧
    (∀ i ∈ prioritizeWorkItems goGetTestFilePath (fun _ => false) repC2
        (newState "p" 80 "Go" 0),
      i.priority = goTrunc (100 - i.currentCoverage)) ∧
    (prioritizeWorkItems goGetTestFilePath (fun _ => false) repC2
        (newState "p" 80 "Go" 0)).Pairwise
      (fun a b => b.priority ≤ a.priority) := by
  have h := c2_prioritizer_properties goGetTestFilePath (fun _ => false)
    repC2 (newState "p" 80 "Go" 0)
    (prioritizeWorkItems goGetTestFilePath (fun _ => false) repC2
      (newState "p" 80 "Go" 0))
    ⟨sortByPriority_perm _, pairwise_sortByPriority _⟩ (fun _ => true)
  exact ⟨(h.1 _).2 (by with_unfolding_all decide), h.2.1, h.2.2.1⟩

/-- Claim C9, counterexample.  The claim says every CoverageModel
reporting a unit with coverage below 100 but no uncovered lines still
yields that unit as a work item.  The Python analyzer produces exactly
such a model for a file with `percent_covered = 50` and empty
`missing_lines`: the unit is in the per-unit coverage map with 50 <
100 but omitted from `UncoveredFiles`, and the prioritizer — which
iterates only `UncoveredFiles` — returns no work item for it. -/
theorem c9_counterexample :
    (pythonReportOfFiles 50 [("a.py", 50, [])]).fileCoverage =
      [("a.py", 50)] ∧
    (50 : ℚ) < 100 ∧
    (pythonReportOfFiles 50 [("a.py", 50, [])]).uncoveredFiles = [] ∧
    prioritizeWorkItems goGetTestFilePath (fun _ => false)
      (pythonReportOfFiles 50 [("a.py", 50, [])])
      (newState "p" 80 "Python" 0) = [] := by
  with_unfolding_all decide

/-- Claim C9 (amended).  A unit is kept as a work item exactly when it
is listed in the model's `UncoveredFiles` and is in neither ledger: in
particular a listed unit with no uncovered-line detail (degraded work
item) is still included, but a unit only present in the per-unit
coverage map is dropped — and the Python analyzer omits from
`UncoveredFiles` precisely the files whose `missing_lines` list is
empty, even when their coverage is below 100. -/
theorem c9_degraded_items (g : String → String) (fs : String → Bool)
    (report : CoverageReport) (s : State) (u : String)
    (hu : u ∈ report.uncoveredFiles)
    (h1 : isFileProcessed s u = false)
    (h2 : mapLookup u s.failedFiles = none) :
    u ∈ (prioritizeWorkItems g fs report s).map (fun i => i.sourceFile) ∧
    (∀ v, v ∉ report.uncoveredFiles →
      v ∉ (prioritizeWorkItems g fs report s).map (fun i => i.sourceFile)) ∧
    (∀ (total : ℚ) (files : List (String × ℚ × List Int)),
      (pythonReportOfFiles total files).uncoveredFiles =
        (files.filter fun e => 0 < e.2.2.length).map (fun e => e.1)) := by
  refine ⟨sourceFile_mem_prioritize.2 ⟨hu, h1, h2⟩, ?_, ?_⟩
  · intro v hv hmem
    exact hv (sourceFile_mem_prioritize.1 hmem).1
  · intro total files
    exact pythonReport_uncoveredFiles total files

/-- Claim C9, witness: a unit listed in `UncoveredFiles` with an empty
uncovered-lines list and coverage below 100 is still produced as a
work item. -/
theorem c9_witness :
    "a.py" ∈ (prioritizeWorkItems goGetTestFilePath (fun _ => false)
      { totalCoverage := 50, fileCoverage := [("a.py", 50)],
        uncoveredFiles := ["a.py"], uncoveredLines := [],
        language := "Python" }
      (newState "p" 80 "Python" 0)).map (fun i => i.sourceFile) :=
  (c9_degraded_items goGetTestFilePath (fun _ => false)
    { totalCoverage := 50, fileCoverage := [("a.py", 50)],
      uncoveredFiles := ["a.py"], uncoveredLines := [],
      language := "Python" }
    (newState "p" 80 "Python" 0) "a.py"
    (by with_unfolding_all decide) (by with_unfolding_all decide)
    (by with_unfolding_all decide)).1

/-- Claim C3 (confirmed): starting from a fresh SessionState, after
any number of Orchestrator iterations no unit is in both the
processed and the failed ledger; and between any earlier point of the
session and any later one, processed units stay processed and never
gain a failed entry, failed units keep their exact failed entry and
never become processed — classification is written at most once and
never revisited.  `k` and `n` observe the same run after `k` and
`n ≥ k` loop passes. -/
theorem c3_ledger_exclusive (cfg : ConfigM) (language : String) (t0 : Nat)
    (initialMeasure : Except GoErr CoverageReport) (envs : Nat → IterEnv)
    (k n : Nat) (hkn : k ≤ n) :
    ledgerOK (runMain cfg initialMeasure envs n
      (machineNew cfg language t0)).1.state ∧
    ledgerStep
      (runMain cfg initialMeasure envs k (machineNew cfg language t0)).1.state
      (runMain cfg initialMeasure envs n
        (machineNew cfg language t0)).1.state := by
  have hOK0 := ledgerOK_machineNew cfg language t0
  obtain ⟨d, rfl⟩ : ∃ d, n = k + d := ⟨n - k, by omega⟩
  refine ⟨(runMain_ledger cfg initialMeasure envs (k + d) _ hOK0).1, ?_⟩
  unfold runMain
  cases initialMeasure with
  | error e => exact ledgerStep_refl _
  | ok report =>
      by_cases h1 : 0 < cfg.targetCoverage - report.totalCoverage
      case neg =>
        simp only [h1, if_false]
        exact ledgerStep_refl _
      by_cases h2 : needsTestGeneration (mSnapshot report.totalCoverage
          (machineNew cfg language t0)).state = false
      · simp only [h1, h2, if_true]
        exact ledgerStep_refl _
      · have h2' : needsTestGeneration (mSnapshot report.totalCoverage
            (machineNew cfg language t0)).state = true := by
          simpa using h2
        simp only [h1, if_true, h2', Bool.true_eq_false, if_false]
        have hOK1 : ledgerOK (mSnapshot report.totalCoverage
            (machineNew cfg language t0)).state := fun u hu => hOK0 u hu
        have hOKk := (runLoop_ledger cfg envs k 0
          (mSnapshot report.totalCoverage (machineNew cfg language t0))
          hOK1).1
        rcases hk : runLoop cfg envs 0 k
            (mSnapshot report.totalCoverage (machineNew cfg language t0)) with
          ⟨mk, res⟩
        rw [hk] at hOKk
        cases res with
        | none =>
            rw [runLoop_fuel_comp cfg envs k d 0 _ mk hk, Nat.zero_add]
            exact (runLoop_ledger cfg envs d k mk hOKk).2
        | some r =>
            rw [runLoop_halt_abs cfg envs k d 0 _ mk r hk]
            exact ledgerStep_refl _

/-- Claim C3, witness: the invariant instantiated on the concrete
65/70/82 session after 1 and 3 iterations. -/
theorem c3_witness :
    ledgerOK (runMain cfgStd (.ok (repOf 65 "f0.go")) envsSeq82 3
      (machineNew cfgStd "Go" 0)).1.state ∧
    ledgerStep
      (runMain cfgStd (.ok (repOf 65 "f0.go")) envsSeq82 1
        (machineNew cfgStd "Go" 0)).1.state
      (runMain cfgStd (.ok (repOf 65 "f0.go")) envsSeq82 3
        (machineNew cfgStd "Go" 0)).1.state :=
  c3_ledger_exclusive cfgStd "Go" 0 (.ok (repOf 65 "f0.go")) envsSeq82 1 3
    (by decide)

/-! # Claim theorems (continued) -/

/-- Claim C5 (confirmed): `ValidateAndRetry` with `maxRetries = N`
invokes the repair function at most `N` times; when it returns a
result, that result is the outcome of the last validation (the
validation of the final state of the artifact), and every repair was
preceded by a failed validation, so the first successful validation
stops the ladder; and in the Orchestrator a unit whose validation
result after the bounded repairs is still unsuccessful is marked
failed with the validator's error message and — by ledger
persistence — is excluded from prioritization for the rest of the
session. -/
theorem c5_bounded_repair (env : ValEnv) (n : Nat) (cfg : ConfigM)
    (penv : ProcEnv) (item : WorkItem) (m : Machine)
    (r : ValidationResult) (tf : String)
    (hdr : cfg.dryRun = false) (hc : penv.cancelled = false)
    (hte : item.testFileIsPresent = false)
    (hg : generateTestForFile penv.gen (cfg.getTestFilePath item.sourceFile) =
      .ok tf)
    (hvr : (validateAndRetry penv.val 2).result = .ok r)
    (hrs : r.success = false) :
    ((validateAndRetry env n).fixCalls ≤ n) ∧
    (∀ r0, (validateAndRetry env n).result = .ok r0 →
      validateTest (env.analyzerOutcome (validateAndRetry env n).fixWrites) =
        .ok r0 ∧
      ∀ j, j < (validateAndRetry env n).fixWrites →
        ∃ rf, validateTest (env.analyzerOutcome j) = .ok rf ∧
          rf.success = false) ∧
    (processFile cfg penv item m).2 = none ∧
    mapLookup item.sourceFile
      (processFile cfg penv item m).1.state.failedFiles =
      some r.errorMessage ∧
    (∀ s', ledgerStep (processFile cfg penv item m).1.state s' →
      ∀ (g : String → String) (fs : String → Bool) (rep : CoverageReport),
        item.sourceFile ∉
          (prioritizeWorkItems g fs rep s').map (fun i => i.sourceFile)) := by
  have hpfF : (processFile cfg penv item m).1.state.failedFiles =
      mapInsert item.sourceFile r.errorMessage m.state.failedFiles := by
    simp [processFile, hc, hte, hdr, hg, hvr, hrs, markFileFailed,
      mRecordAPICall, recordAPICall, addGeneratedTest]
  refine ⟨?_, ?_, ?_, ?_, ?_⟩
  · have h := varLoop_fixCalls_le env (n + 1) 0
    simpa [validateAndRetry] using h
  · intro r0 h0
    have h1 := varLoop_result_ok env (n + 1) 0 r0 h0
    rw [Nat.zero_add] at h1
    refine ⟨h1, fun j hj => ?_⟩
    have h2 := varLoop_earlier_failed env (n + 1) 0 j hj
    rwa [Nat.zero_add] at h2
  · simp [processFile, hc, hte, hdr, hg, hvr, hrs]
  · rw [hpfF]
    exact mapLookup_mapInsert_self _ _ _
  · intro s' hstep g fs rep hmem
    have hnone := (sourceFile_mem_prioritize.1 hmem).2.2
    have hsome := hstep.2.1 item.sourceFile r.errorMessage
      (by rw [hpfF]; exact mapLookup_mapInsert_self _ _ _)
    rw [hnone] at hsome
    exact Option.noConfusion hsome

/-- Claim C5, witness: two repairs are attempted for a unit whose
validation keeps failing, the repair counter stays at `maxRetries`,
and the Orchestrator records the failure message. -/
theorem c5_witness :
    ((validateAndRetry valEnvPass 2).fixCalls ≤ 2) ∧
    (processFile cfgStd procEnvFail itemA
      (machineNew cfgStd "Go" 0)).2 = none ∧
    mapLookup "a.go" (processFile cfgStd procEnvFail itemA
      (machineNew cfgStd "Go" 0)).1.state.failedFiles =
      some "Tests failed" := by
  have h := c5_bounded_repair valEnvPass 2 cfgStd procEnvFail itemA
    (machineNew cfgStd "Go" 0)
    { success := false, compilationOK := true, testsPassed := false,
      output := "x", errorMessage := "Tests failed", failedTests := [] }
    "a_test.go" (by with_unfolding_all decide) (by with_unfolding_all decide)
    (by with_unfolding_all decide) (by with_unfolding_all decide)
    (by with_unfolding_all decide) (by with_unfolding_all decide)
  exact ⟨h.1, h.2.2.1, h.2.2.2.1⟩


/-- Claim C7, counterexample.  The claim says a hard validation error
(non-nil error from the analyzer's `ValidateTestFile`) must not put
the unit into the failed ledger and must abort the session.  On this
concrete iteration whose toolchain cannot run, the loop instead
records the unit in `FailedFiles` (with the doubly wrapped
"validation error" text) and continues to the next iteration — it
does not abort. -/
theorem c7_counterexample :
    stepIsCont (runIter cfgStd iterEnvHard (machineNew cfgStd "Go" 0)) =
      true ∧
    mapLookup "f1.go" (stepMachine (runIter cfgStd iterEnvHard
      (machineNew cfgStd "Go" 0))).state.failedFiles =
      some "validation error: validation error: exec: go: not found" ∧
    isFileProcessed (stepMachine (runIter cfgStd iterEnvHard
      (machineNew cfgStd "Go" 0))).state "f1.go" = false := by
  refine ⟨?_, ?_, ?_⟩ <;> with_unfolding_all decide

/-- Claim C7 (amended): a `Validate` call whose toolchain cannot even
run is propagated as a hard Go error (wrapped `"validation error"`),
distinct from a clean failing `ValidationResult`; `ValidateAndRetry`
aborts the repair ladder at once (no repair call) and propagates it;
the Orchestrator, however, does not abort the session: the type-level
distinction is collapsed at go.go lines 445-448, the unit is recorded
in the failed ledger with the wrapped error text, and the loop
continues with the next iteration. -/
theorem c7_hard_error (e : GoErr) (venv : ValEnv) (n : Nat)
    (henv : venv.analyzerOutcome 0 = .error e)
    (cfg : ConfigM) (env : IterEnv) (report : CoverageReport)
    (item : WorkItem) (rest : List WorkItem) (m : Machine) (tf : String)
    (hval : env.proc.val = venv)
    (hc : env.proc.cancelled = false) (hdr : cfg.dryRun = false)
    (hte : item.testFileIsPresent = false)
    (hg : generateTestForFile env.proc.gen
      (cfg.getTestFilePath item.sourceFile) = .ok tf)
    (hpi : prioritizeWorkItems cfg.getTestFilePath env.fsExists report
      m.state = item :: rest) :
    validateTest (venv.analyzerOutcome 0) =
      .error (.wrapped "validation error" e) ∧
    (∀ r : ValidationResult, validateTest (venv.analyzerOutcome 0) ≠ .ok r) ∧
    ((validateAndRetry venv n).result =
      .error (.wrapped "validation error" e) ∧
      (validateAndRetry venv n).fixCalls = 0) ∧
    (processFile cfg env.proc item m).2 =
      some (.wrapped "validation error" (.wrapped "validation error" e)) ∧
    stepIsCont (runSelect cfg env report m) = true ∧
    mapLookup item.sourceFile
      (stepMachine (runSelect cfg env report m)).state.failedFiles =
      some ("validation error: " ++ ("validation error: " ++ errString e)) := by
  have hvt : validateTest (venv.analyzerOutcome 0) =
      .error (.wrapped "validation error" e) := by
    rw [henv]; rfl
  have hvarAt : ∀ k : Nat, (validateAndRetry venv k).result =
      .error (.wrapped "validation error" e) ∧
      (validateAndRetry venv k).fixCalls = 0 := by
    intro k
    unfold validateAndRetry varLoop
    rw [hvt]
    exact ⟨rfl, rfl⟩
  have hvar := hvarAt n
  have hpf : (processFile cfg env.proc item m).2 =
      some (.wrapped "validation error" (.wrapped "validation error" e)) := by
    simp [processFile, hc, hte, hdr, hg, hval, (hvarAt 2).1]
  have hpfF : (processFile cfg env.proc item m).1.state.failedFiles =
      m.state.failedFiles := by
    simp [processFile, hc, hte, hdr, hg, hval, (hvarAt 2).1, mRecordAPICall,
      recordAPICall, addGeneratedTest]
  refine ⟨hvt, fun r hr => by rw [hvt] at hr; exact Except.noConfusion hr,
    hvar, hpf, ?_, ?_⟩
  · unfold runSelect
    rw [hpi]
    dsimp only
    rw [hpf]
    rfl
  · unfold runSelect
    rw [hpi]
    dsimp only
    rw [hpf]
    dsimp only [stepMachine, asRateLimitErr]
    simp [mSave, saveStateData, markFileFailed, hpfF, errString,
      mapLookup_mapInsert_self]

/-- Claim C7, witness: the amended statement at the concrete
broken-toolchain environment. -/
theorem c7_witness :
    validateTest (valEnvHard.analyzerOutcome 0) =
      .error (.wrapped "validation error" (.basic "exec: go: not found")) ∧
    (validateAndRetry valEnvHard 2).fixCalls = 0 ∧
    stepIsCont (runSelect cfgStd iterEnvHard (repOf 50 "f1.go")
      (machineNew cfgStd "Go" 0)) = true := by
  have h := c7_hard_error (.basic "exec: go: not found") valEnvHard 2
    rfl cfgStd iterEnvHard (repOf 50 "f1.go")
    (mkWorkItem goGetTestFilePath (fun _ => false) (repOf 50 "f1.go")
      "f1.go")
    [] (machineNew cfgStd "Go" 0) "f1_test.go"
    rfl rfl rfl
    (by with_unfolding_all decide) (by with_unfolding_all decide)
    (by with_unfolding_all decide)
  exact ⟨h.1, h.2.2.1.2, h.2.2.2.2.1⟩


/-- Claim C1 (code bug): when the client reports a throttled outcome
(`*claude.RateLimitError` with reset time T = 1000), the claim — and
the source's own comments and README — say the Orchestrator records T
as the rate-limit reset deadline, persists state, and retries the same
unit after the wait.  The code instead wraps the error twice with
`fmt.Errorf("...: %w", err)` (generator.go line 46, go.go line 542)
and then matches it with the type assertion
`err.(*claude.RateLimitError)` (go.go line 434), which never succeeds
on a wrapped error: the deadline stays zero (never recorded), the unit
is marked failed with the wrapped message, and it is never retried —
while the bare error would have matched, as the last conjunct shows. -/
theorem c1_throttle_drops_deadline :
    generateTestForFile procEnvRL.gen "f1_test.go" =
      .error (.wrapped "failed to generate test" (.rateLimit 1000 60)) ∧
    (processFile cfgStd procEnvRL itemA (machineNew cfgStd "Go" 0)).2 =
      some (.wrapped "failed to generate test"
        (.wrapped "failed to generate test" (.rateLimit 1000 60))) ∧
    asRateLimitErr (.wrapped "failed to generate test"
      (.wrapped "failed to generate test" (.rateLimit 1000 60))) = none ∧
    stepIsCont (runIter cfgStd iterEnvRL (machineNew cfgStd "Go" 0)) =
      true ∧
    (stepMachine (runIter cfgStd iterEnvRL
      (machineNew cfgStd "Go" 0))).state.rateLimitResetTime = 0 ∧
    mapLookup "f1.go" (stepMachine (runIter cfgStd iterEnvRL
      (machineNew cfgStd "Go" 0))).state.failedFiles = some
      ("failed to generate test: failed to generate test: " ++
        "rate limit exceeded, resets at 1000") ∧
    isFileProcessed (stepMachine (runIter cfgStd iterEnvRL
      (machineNew cfgStd "Go" 0))).state "f1.go" = false ∧
    asRateLimitErr (.rateLimit 1000 60) = some (1000, 60) := by
  set_option maxRecDepth 4000 in
  refine ⟨?_, ?_, ?_, ?_, ?_, ?_, ?_, ?_⟩ <;> with_unfolding_all decide


theorem asRateLimitErr_makeFailErr (msg : String) (i : Option GoErr) :
    asRateLimitErr (makeFailErr msg i) = none := by
  cases i <;> rfl

/-- Claim C8 (confirmed): `SendMessage` maps an HTTP 429 to a
distinguished `RateLimitError` whose reset time is the clock at that
request plus the `retry-after` header value (60 seconds when the
header is absent) and returns it immediately, with no further
attempts; every other request failure is retried with exponential
backoff (base delay 2 s doubling per attempt) up to the fixed ceiling
of `RetryMaxAttempts = 3` requests, after which the last error is
returned (wrapped as "failed after 3 attempts: %w"). -/
theorem c8_client_retry (t0 : Nat) :
    (∀ (outcomes : Nat → ReqOutcome) (k : Nat) (h : Option Nat), k < 3 →
      (∀ j, j < k → ∃ msg inner, outcomes j = .failed msg inner) →
      outcomes k = .tooMany h →
      (sendMessage outcomes t0).result = .error (.rateLimit
        (t0 + ((List.range k).map fun a => retryBaseDelay * 2 ^ a).sum +
          h.getD 60) (h.getD 60)) ∧
      (sendMessage outcomes t0).requests = k + 1 ∧
      (sendMessage outcomes t0).delays =
        (List.range k).map fun a => retryBaseDelay * 2 ^ a) ∧
    (∀ (outcomes : Nat → ReqOutcome) (m0 m1 m2 : String)
      (i0 i1 i2 : Option GoErr),
      outcomes 0 = .failed m0 i0 → outcomes 1 = .failed m1 i1 →
      outcomes 2 = .failed m2 i2 →
      (sendMessage outcomes t0).result = .error
        (.wrapped "failed after 3 attempts" (makeFailErr m2 i2)) ∧
      (sendMessage outcomes t0).requests = 3 ∧
      (sendMessage outcomes t0).delays =
        [retryBaseDelay, retryBaseDelay * 2]) := by
  constructor
  · intro outcomes k h hk hfail h429
    interval_cases k
    · refine ⟨?_, ?_, ?_⟩ <;>
        simp [sendMessage, sendLoop, makeRequest, h429, asRateLimitErr,
          retryMaxAttempts, retryBaseDelay]
    · obtain ⟨ma, ia, ha⟩ := hfail 0 (by omega)
      cases ia <;> refine ⟨?_, ?_, ?_⟩ <;>
        simp [sendMessage, sendLoop, makeRequest, h429, ha, asRateLimitErr,
          makeFailErr, retryMaxAttempts, retryBaseDelay, List.range_succ]
    · obtain ⟨ma, ia, ha⟩ := hfail 0 (by omega)
      obtain ⟨mb, ib, hb⟩ := hfail 1 (by omega)
      cases ia <;> cases ib <;> refine ⟨?_, ?_, ?_⟩ <;>
        simp [sendMessage, sendLoop, makeRequest, h429, ha, hb,
          asRateLimitErr, makeFailErr, retryMaxAttempts,
          retryBaseDelay, List.range_succ]
  · intro outcomes m0 m1 m2 i0 i1 i2 h0 h1 h2
    cases i0 <;> cases i1 <;> cases i2 <;> refine ⟨?_, ?_, ?_⟩ <;>
      simp [sendMessage, sendLoop, makeRequest, h0, h1, h2, asRateLimitErr,
        makeFailErr, retryMaxAttempts, retryBaseDelay] <;>
      with_unfolding_all rfl

/-- Claim C8, witness: a 429 on the second attempt with no
`retry-after` header, after one ordinary failure, is returned
immediately with reset time `t0 + 2 + 60`; and three ordinary
failures exhaust the ceiling with backoff delays [2, 4]. -/
theorem c8_witness :
    ((sendMessage (fun j => if j = 0 then .failed "boom" none
        else .tooMany none) 5).result =
      .error (.rateLimit (5 + 2 + 60) 60) ∧
     (sendMessage (fun j => if j = 0 then .failed "boom" none
        else .tooMany none) 5).requests = 2) ∧
    ((sendMessage (fun _ => .failed "boom" none) 5).result =
      .error (.wrapped "failed after 3 attempts" (.basic "boom")) ∧
     (sendMessage (fun _ => .failed "boom" none) 5).delays = [2, 4]) := by
  have h1 := (c8_client_retry 5).1 (fun j => if j = 0 then .failed "boom" none
      else .tooMany none) 1 none (by omega)
    (fun j hj => ⟨"boom", none, by interval_cases j; rfl⟩) rfl
  have h2 := (c8_client_retry 5).2 (fun _ => .failed "boom" none)
    "boom" "boom" "boom" none none none rfl rfl rfl
  refine ⟨⟨?_, ?_⟩, ⟨?_, ?_⟩⟩
  · have := h1.1
    simpa [retryBaseDelay] using this
  · exact h1.2.1
  · exact h2.1
  · have := h2.2.2
    simpa [retryBaseDelay] using this


/-- Claim C10 (confirmed, implicit behaviour): in dry-run mode a
completed iteration still mutates and persists SessionState.  With
`DryRun = true` the selected unit is marked processed even though no
API call was recorded, no artifact was written, and `ValidateAndRetry`
never ran; the mutated state is saved; and because processed entries
persist (ledger step relation), the unit is excluded from
prioritization in every later state of this session and of any
resumed run loaded from that state file. -/
theorem c10_dry_run_mutates (cfg : ConfigM) (env : IterEnv)
    (report : CoverageReport) (m : Machine) (item : WorkItem)
    (rest : List WorkItem)
    (hdr : cfg.dryRun = true) (hc : env.proc.cancelled = false)
    (hOK : ledgerOK m.state)
    (hpi : prioritizeWorkItems cfg.getTestFilePath env.fsExists report
      m.state = item :: rest) :
    stepIsCont (runSelect cfg env report m) = true ∧
    isFileProcessed (stepMachine (runSelect cfg env report m)).state
      item.sourceFile = true ∧
    (stepMachine (runSelect cfg env report m)).state.apiCallCount =
      m.state.apiCallCount ∧
    (stepMachine (runSelect cfg env report m)).state.lastAPICall =
      m.state.lastAPICall ∧
    (stepMachine (runSelect cfg env report m)).writeCount = m.writeCount ∧
    (stepMachine (runSelect cfg env report m)).valRuns = m.valRuns ∧
    (stepMachine (runSelect cfg env report m)).state.generatedTests =
      m.state.generatedTests ∧
    (stepMachine (runSelect cfg env report m)).state.fixedTests =
      m.state.fixedTests ∧
    (stepMachine (runSelect cfg env report m)).savedStates =
      m.savedStates ++ [(stepMachine (runSelect cfg env report m)).state] ∧
    isFileProcessed
      (loadState (stepMachine (runSelect cfg env report m)).state)
      item.sourceFile = true ∧
    (∀ (s' : State), ledgerStep
        (stepMachine (runSelect cfg env report m)).state s' →
      ∀ (g2 : String → String) (fs2 : String → Bool)
        (rep2 : CoverageReport),
        item.sourceFile ∉
          (prioritizeWorkItems g2 fs2 rep2 s').map (fun i => i.sourceFile)) ∧
    (∀ (cfg2 : ConfigM) (initM : Except GoErr CoverageReport)
      (envs : Nat → IterEnv) (fuel t : Nat) (g2 : String → String)
      (fs2 : String → Bool) (rep2 : CoverageReport),
      item.sourceFile ∉
        (prioritizeWorkItems g2 fs2 rep2 (runMain cfg2 initM envs fuel
          (machineResume
            (loadState (stepMachine (runSelect cfg env report m)).state)
            t)).1.state).map (fun i => i.sourceFile)) := by
  have hpf : processFile cfg env.proc item m =
      ({ m with state := markFileProcessed item.sourceFile m.state }, none)
      := by
    cases hte : item.testFileIsPresent <;> simp [processFile, hc, hdr, hte]
  have hrs : runSelect cfg env report m =
      .cont (mSave
        { m with state := markFileProcessed item.sourceFile m.state }) := by
    unfold runSelect
    rw [hpi]
    dsimp only
    rw [hpf]
  have hfresh := mem_prioritize.1
    (by rw [hpi]; exact List.mem_cons_self _ _ :
      item ∈ prioritizeWorkItems cfg.getTestFilePath env.fsExists report
        m.state)
  have hmark := ledger_markFileProcessed (s := m.state)
    (u := item.sourceFile) hfresh.2.2.1
  have hproc : isFileProcessed (stepMachine
      (runSelect cfg env report m)).state item.sourceFile = true := by
    rw [hrs]
    simp only [stepMachine, mSave, saveStateData]
    rw [show isFileProcessed { markFileProcessed item.sourceFile m.state
        with lastUpdatedAt := m.clock } item.sourceFile =
      isFileProcessed (markFileProcessed item.sourceFile m.state)
        item.sourceFile from rfl]
    rw [isFileProcessed_markFileProcessed]
    simp
  have hstepTo : ledgerStep m.state
      (stepMachine (runSelect cfg env report m)).state := by
    rw [hrs]
    exact ledgerStep_trans hmark.1 (ledgerStep_of_eq rfl rfl).1
  have hOK2 : ledgerOK (stepMachine (runSelect cfg env report m)).state := by
    rw [hrs]
    exact ((ledgerStep_of_eq rfl rfl).2) (hmark.2 hOK)
  have hexcl : ∀ (s' : State), ledgerStep
      (stepMachine (runSelect cfg env report m)).state s' →
      ∀ (g2 : String → String) (fs2 : String → Bool)
        (rep2 : CoverageReport),
        item.sourceFile ∉
          (prioritizeWorkItems g2 fs2 rep2 s').map (fun i => i.sourceFile) := by
    intro s' hstep g2 fs2 rep2 hmem
    have hfalse := (sourceFile_mem_prioritize.1 hmem).2.1
    have htrue := hstep.1 item.sourceFile hproc
    rw [htrue] at hfalse
    exact Bool.noConfusion hfalse
  refine ⟨by rw [hrs]; rfl, hproc, by rw [hrs]; rfl, by rw [hrs]; rfl,
    by rw [hrs]; rfl, by rw [hrs]; rfl, by rw [hrs]; rfl, by rw [hrs]; rfl,
    by rw [hrs]; rfl, hproc, hexcl, ?_⟩
  intro cfg2 initM envs fuel t g2 fs2 rep2
  have hrm := runMain_ledger cfg2 initM envs fuel
    (machineResume (loadState (stepMachine
      (runSelect cfg env report m)).state) t) hOK2
  exact hexcl _ hrm.2 g2 fs2 rep2

/-- Claim C10, witness: a dry-run iteration on a fresh session marks
the selected unit processed with no API call, no write, no validation,
and saves the state. -/
theorem c10_witness :
    stepIsCont (runSelect { cfgStd with dryRun := true }
      (iterEnvOf 50 "f1.go") (repOf 50 "f1.go")
      (machineNew cfgStd "Go" 0)) = true ∧
    isFileProcessed (stepMachine (runSelect { cfgStd with dryRun := true }
      (iterEnvOf 50 "f1.go") (repOf 50 "f1.go")
      (machineNew cfgStd "Go" 0))).state "f1.go" = true ∧
    (stepMachine (runSelect { cfgStd with dryRun := true }
      (iterEnvOf 50 "f1.go") (repOf 50 "f1.go")
      (machineNew cfgStd "Go" 0))).state.apiCallCount =
      (machineNew cfgStd "Go" 0).state.apiCallCount ∧
    (stepMachine (runSelect { cfgStd with dryRun := true }
      (iterEnvOf 50 "f1.go") (repOf 50 "f1.go")
      (machineNew cfgStd "Go" 0))).writeCount =
      (machineNew cfgStd "Go" 0).writeCount ∧
    (stepMachine (runSelect { cfgStd with dryRun := true }
      (iterEnvOf 50 "f1.go") (repOf 50 "f1.go")
      (machineNew cfgStd "Go" 0))).valRuns =
      (machineNew cfgStd "Go" 0).valRuns := by
  have h := c10_dry_run_mutates { cfgStd with dryRun := true }
    (iterEnvOf 50 "f1.go") (repOf 50 "f1.go") (machineNew cfgStd "Go" 0)
    (mkWorkItem goGetTestFilePath (fun _ => false) (repOf 50 "f1.go")
      "f1.go") [] rfl rfl
    (ledgerOK_machineNew cfgStd "Go" 0)
    (by with_unfolding_all decide)
  exact ⟨h.1, h.2.1, h.2.2.1, h.2.2.2.2.1, h.2.2.2.2.2.1⟩


/-- Claim C6 (confirmed): in any loop pass whose fresh coverage
measurement reports total coverage at or above the target (the strict
`>=` of go.go line 411, no tolerance margin), the loop appends the
measurement to the history, reports success (`targetReached`), saves
the state, and halts in that same pass: the iteration counter
advanced once, no API call was recorded and nothing was written in
the pass, and with any remaining fuel the loop performs no further
iteration — so generation is never invoked afterwards. -/
theorem c6_stops_on_target (cfg : ConfigM) (env : IterEnv) (m : Machine)
    (report : CoverageReport)
    (hmax : m.state.currentIteration < cfg.maxIterations)
    (hcanc : env.cancelled = false)
    (hwait : shouldWaitForRateLimit m.state m.clock = false)
    (hms : env.measure = .ok report)
    (htgt : cfg.targetCoverage ≤ report.totalCoverage) :
    ∃ m', runIter cfg env m = .halt m' .targetReached ∧
      m'.state.apiCallCount = m.state.apiCallCount ∧
      m'.writeCount = m.writeCount ∧
      m'.valRuns = m.valRuns ∧
      m'.savedStates = m.savedStates ++ [m'.state] ∧
      m'.state.currentIteration = m.state.currentIteration + 1 ∧
      m'.state.currentCoverage = report.totalCoverage ∧
      m'.state.coverageHistory = m.state.coverageHistory ++
        [{ timestamp := m.clock, coverage := report.totalCoverage,
           iteration := m.state.currentIteration + 1,
           filesAdded := m.state.generatedTests.length +
             m.state.fixedTests.length }] ∧
      (∀ (envs : Nat → IterEnv) (i fuel : Nat), envs i = env →
        runLoop cfg envs i (fuel + 1) m = (m', some .targetReached)) := by
  have hstep : runIter cfg env m = .halt
      (mSave (mSnapshot report.totalCoverage { m with state :=
        { m.state with currentIteration := m.state.currentIteration + 1 } }))
      .targetReached := by
    unfold runIter runIterCore
    simp only [hmax, not_true_eq_false, if_false, hcanc, Bool.false_eq_true,
      hwait, false_and, if_false, hms, htgt, if_true]
  refine ⟨_, hstep, rfl, rfl, rfl, rfl, rfl, rfl, rfl, ?_⟩
  intro envs i fuel henv
  rw [runLoop, henv, hstep]

/-- Claim C6, witness: with target 80 and measured sequence
65, 70, 82 across the loop passes, the session stops exactly at the
pass producing 82 (iteration 3), reports success, made two generation
calls in total, and no fourth pass or further generation happens. -/
theorem c6_witness :
    (runMain cfgStd (.ok (repOf 65 "f0.go")) envsSeq82 100
      (machineNew cfgStd "Go" 0)).2 = some .targetReached ∧
    (runMain cfgStd (.ok (repOf 65 "f0.go")) envsSeq82 100
      (machineNew cfgStd "Go" 0)).1.state.currentIteration = 3 ∧
    (runMain cfgStd (.ok (repOf 65 "f0.go")) envsSeq82 100
      (machineNew cfgStd "Go" 0)).1.state.apiCallCount = 2 ∧
    ((runMain cfgStd (.ok (repOf 65 "f0.go")) envsSeq82 100
      (machineNew cfgStd "Go" 0)).1.state.coverageHistory.map
        (fun e => e.iteration)) = [0, 1, 2, 3] ∧
    (∃ m', runIter cfgStd (envsSeq82 2)
        (runLoop cfgStd envsSeq82 0 2 (mSnapshot 65
          (machineNew cfgStd "Go" 0))).1 = .halt m' .targetReached ∧
      m'.state.apiCallCount =
        (runLoop cfgStd envsSeq82 0 2 (mSnapshot 65
          (machineNew cfgStd "Go" 0))).1.state.apiCallCount) := by
  refine ⟨?_, ?_, ?_, ?_, ?_⟩
  · with_unfolding_all decide
  · with_unfolding_all decide
  · with_unfolding_all decide
  · with_unfolding_all decide
  · obtain ⟨m', h1, h2, _⟩ := c6_stops_on_target cfgStd (envsSeq82 2)
      (runLoop cfgStd envsSeq82 0 2 (mSnapshot 65
        (machineNew cfgStd "Go" 0))).1 (repOf 82 "f3.go")
      (by with_unfolding_all decide) (by with_unfolding_all decide)
      (by with_unfolding_all decide) (by with_unfolding_all decide)
      (by with_unfolding_all decide)
    exact ⟨m', h1, h2⟩


/-- Claim C4 (corrected): round-trip resumability.  Proved parts:
`SaveState` followed by `LoadState` preserves the iteration counter,
both ledgers, the artifact lists and the coverage history; a unit in
either ledger of the saved state is excluded from prioritization in
every ledger-successor of the saved state — in particular in the
final state of the resumed run, whose ledgers extend the saved ones
and stay exclusive — so an already-classified unit is never selected
again; and the resumed run's coverage history extends the saved
history append-only, staying well-formed (iteration numbers
non-decreasing and bounded by the counter, timestamps strictly
increasing).  Corrected part: the claim also says the resumed run
does not add a duplicate coverage-history entry for the interrupted
iteration, but `Run`'s pre-loop snapshot (go.go line 341) is appended
with the *saved* iteration counter, so the first entry the resumed
run appends always reuses the interrupted iteration number; whenever
the interrupted session had already snapshotted that iteration the
number is double-counted, and iteration numbers are only
non-decreasing, not strictly increasing (see the counterexample). -/
theorem c4_resumability (cfg : ConfigM) (rep : CoverageReport)
    (envs : Nat → IterEnv) (fuel t : Nat) (saved : State) (u : String)
    (hOK : ledgerOK saved)
    (hu : isFileProcessed saved u = true ∨
      (mapLookup u saved.failedFiles).isSome = true)
    (hh : histOK (machineResume (loadState saved) t)) :
    (∀ (s : State) (now : Nat),
      (loadState (saveStateData now s)).currentIteration =
        s.currentIteration ∧
      (loadState (saveStateData now s)).processedFiles = s.processedFiles ∧
      (loadState (saveStateData now s)).failedFiles = s.failedFiles ∧
      (loadState (saveStateData now s)).generatedTests = s.generatedTests ∧
      (loadState (saveStateData now s)).fixedTests = s.fixedTests ∧
      (loadState (saveStateData now s)).coverageHistory =
        s.coverageHistory) ∧
    (∀ (s' : State), ledgerStep saved s' →
      ∀ (g : String → String) (fs : String → Bool) (r2 : CoverageReport),
        u ∉ (prioritizeWorkItems g fs r2 s').map (fun i => i.sourceFile)) ∧
    ledgerStep saved
      (runMain cfg (.ok rep) envs fuel
        (machineResume (loadState saved) t)).1.state ∧
    ledgerOK
      (runMain cfg (.ok rep) envs fuel
        (machineResume (loadState saved) t)).1.state ∧
    (∀ (g : String → String) (fs : String → Bool) (r2 : CoverageReport),
      u ∉ (prioritizeWorkItems g fs r2
        (runMain cfg (.ok rep) envs fuel
          (machineResume (loadState saved) t)).1.state).map
        (fun i => i.sourceFile)) ∧
    histOK (runMain cfg (.ok rep) envs fuel
      (machineResume (loadState saved) t)).1 ∧
    (∃ tail,
      (runMain cfg (.ok rep) envs fuel
        (machineResume (loadState saved) t)).1.state.coverageHistory =
      saved.coverageHistory ++
        snapEntry0 (machineResume (loadState saved) t) rep.totalCoverage ::
          tail) ∧
    (snapEntry0 (machineResume (loadState saved) t)
      rep.totalCoverage).iteration = saved.currentIteration := by
  have hexcl : ∀ (s' : State), ledgerStep saved s' →
      ∀ (g : String → String) (fs : String → Bool) (r2 : CoverageReport),
        u ∉ (prioritizeWorkItems g fs r2 s').map (fun i => i.sourceFile) := by
    intro s' hstep g fs r2 hmem
    obtain ⟨-, h1, h2⟩ := sourceFile_mem_prioritize.1 hmem
    cases hu with
    | inl hp =>
        rw [hstep.1 u hp] at h1
        exact Bool.noConfusion h1
    | inr hf =>
        obtain ⟨msg, hmsg⟩ := Option.isSome_iff_exists.1 hf
        rw [hstep.2.1 u msg hmsg] at h2
        exact Option.noConfusion h2
  have hrm := runMain_ledger cfg (.ok rep) envs fuel
    (machineResume (loadState saved) t) hOK
  have hhist := runMain_hist cfg (.ok rep) envs fuel
    (machineResume (loadState saved) t)
  exact ⟨fun s now => ⟨rfl, rfl, rfl, rfl, rfl, rfl⟩, hexcl, hrm.2, hrm.1,
    fun g fs r2 => hexcl _ hrm.2 g fs r2, hhist.2 hh,
    runMain_resumed_history cfg rep envs fuel (loadState saved) t, rfl⟩

/-- Claim C4, counterexample to the no-duplicate conjunct.  A first
session from a fresh state (target 80): the initial measurement is
65, pass 1 measures 66 and processes `f1.go`, and the context is
cancelled at the start of pass 2, so the session saves a state with
iteration counter 1 and history iterations `[0, 1]`.  A second
session resumes from that state; its pre-loop snapshot is appended
with the saved iteration counter, so the restarted session's history
lists the interrupted iteration number 1 twice. -/
theorem c4_counterexample :
    sessC4.2 = some .cancelledStop ∧
    savedC4.currentIteration = 1 ∧
    savedC4.coverageHistory.map (fun e => e.iteration) = [0, 1] ∧
    isFileProcessed savedC4 "f1.go" = true ∧
    (loadState savedC4).currentIteration = 1 ∧
    sessC4r.1.state.coverageHistory.map (fun e => e.iteration) =
      [0, 1, 1] ∧
    (sessC4r.1.state.coverageHistory.filter
      (fun e => e.iteration == savedC4.currentIteration)).length = 2 := by
  with_unfolding_all decide

/-- Claim C4, witness: resuming from a concrete saved state (unit
`f1.go` processed, iteration counter 1, two history entries), the
processed unit is absent from the final state's prioritization, the
history stays well-formed, and the first appended snapshot carries
the saved iteration number 1. -/
theorem c4_witness :
    ("f1.go" ∉ (prioritizeWorkItems goGetTestFilePath (fun _ => false)
      (repOf 66 "f1.go")
      (runMain cfgStd (.ok (repOf 66 "f1.go"))
        (fun _ => { iterEnvOf 66 "f1.go" with cancelled := true }) 3
        (machineResume (loadState savedW) 6)).1.state).map
      (fun i => i.sourceFile)) ∧
    histOK (runMain cfgStd (.ok (repOf 66 "f1.go"))
      (fun _ => { iterEnvOf 66 "f1.go" with cancelled := true }) 3
      (machineResume (loadState savedW) 6)).1 ∧
    (snapEntry0 (machineResume (loadState savedW) 6)
      (repOf 66 "f1.go").totalCoverage).iteration =
      savedW.currentIteration := by
  have h := c4_resumability cfgStd (repOf 66 "f1.go")
    (fun _ => { iterEnvOf 66 "f1.go" with cancelled := true }) 3 6 savedW
    "f1.go" (fun u hu => rfl) (Or.inl (by decide))
    (by
      unfold histOK machineResume loadState savedW
      refine ⟨?_, ?_, ?_⟩ <;>
        simp [List.chain'_cons, List.chain'_singleton])
  exact ⟨h.2.2.2.2.1 goGetTestFilePath (fun _ => false) (repOf 66 "f1.go"),
    h.2.2.2.2.2.1, h.2.2.2.2.2.2.2⟩

end TCA
